import Mathlib

/-!
# Secure authentication service: credential and token lifecycle

A shallow embedding of the Go packages `models`, `repository`, `utils`,
`service`, `middleware` and `handlers`, followed by theorems about registration,
login, refresh-token rotation, logout and access-token validation.

Conventions of the embedding.

* A Go `string` is a `String`; a Go return tuple `(a, b, error)` is a Lean tuple
  whose last component is an `Option Error` (`none` is Go's `nil`), and a
  `*models.User` is an `Option User`.
* The MongoDB collection is the list of its documents in insertion order.
  `FindOne` returns the first document matching the filter and `UpdateOne`
  rewrites the first document matching the filter; an update that matches no
  document is not an error for the driver.  Transport failures of the driver
  are outside the model.
* Everything the environment hands to one call (clock readings, random bytes,
  the bcrypt salt, the identifier the driver generates on insert) is an explicit
  argument, the `Draw`.
* The libraries `bcrypt` and `golang-jwt` are parameters (`Externals`,
  `JwtLib`); the wrappers of the repository around them are translated from the
  source.
-/

namespace SecureAuth

/-! ## Errors -/

/-- Error values, identified by what they say.  The first five are the
`errors.New` values of `service`, then the sentinel of `repository`, the two
rejections of `primitive.ObjectIDFromHex` (its own sentinel for a wrong length,
and the `hex.InvalidByteError` of `encoding/hex` with the offending byte), the
two `errors.New` values of `utils/jwt.go`, and errors raised inside a library. -/
inductive Error where
  | emailExists
  | invalidCredentials
  | invalidRefreshFormat
  | noRefreshStored
  | refreshMismatch
  | ErrUserNotFound
  | ErrInvalidHex
  | InvalidByteError (byte : Nat)
  | invalidSigningMethod
  | invalidToken
  | library (detail : String)
  deriving DecidableEq, Repr

/-- Go's `%#U` for a byte value: the code point, followed by the character
when it is printable. -/
def formatU (b : Nat) : String :=
  let hex := "0123456789ABCDEF".data
  let code := "U+00" ++ String.mk [hex.getD (b / 16 % 16) '0', hex.getD (b % 16) '0']
  if (32 ≤ b ∧ b ≤ 126) ∨ (161 ≤ b ∧ b ≤ 255 ∧ b ≠ 173) then
    code ++ " '" ++ String.mk [Char.ofNat b] ++ "'"
  else code

/-- The text of an error (`err.Error()`). -/
def Error.message : Error → String
  | .emailExists => "email already exists"
  | .invalidCredentials => "invalid email or password"
  | .invalidRefreshFormat => "invalid refresh token format"
  | .noRefreshStored => "no refresh token stored"
  | .refreshMismatch => "refresh token mismatch"
  | .ErrUserNotFound => "user not found"
  | .ErrInvalidHex => "the provided hex string is not a valid ObjectID"
  | .InvalidByteError byte => "encoding/hex: invalid byte: " ++ formatU byte
  | .invalidSigningMethod => "invalid signing method"
  | .invalidToken => "invalid token"
  | .library detail => detail

/-! ## `primitive.ObjectID` -/

/-- A `primitive.ObjectID` (twelve bytes), kept as its hexadecimal digits. -/
abbrev ObjectID := List (Fin 16)

/-- The value of one hexadecimal digit, in either case (`encoding/hex`). -/
def hexVal (c : Char) : Option (Fin 16) :=
  if c = '0' then some 0 else if c = '1' then some 1 else if c = '2' then some 2
  else if c = '3' then some 3 else if c = '4' then some 4 else if c = '5' then some 5
  else if c = '6' then some 6 else if c = '7' then some 7 else if c = '8' then some 8
  else if c = '9' then some 9
  else if c = 'a' ∨ c = 'A' then some 10 else if c = 'b' ∨ c = 'B' then some 11
  else if c = 'c' ∨ c = 'C' then some 12 else if c = 'd' ∨ c = 'D' then some 13
  else if c = 'e' ∨ c = 'E' then some 14 else if c = 'f' ∨ c = 'F' then some 15
  else none

/-- The lower-case digit of a value below sixteen. -/
def hexChar (v : Fin 16) : Char :=
  "0123456789abcdef".data.getD v.val '0'

/-- Decode a run of hexadecimal digits; `none` at the first character that is
not one. -/
def hexDecode : List Char → Option (List (Fin 16))
  | [] => some []
  | c :: cs =>
    match hexVal c, hexDecode cs with
    | some v, some vs => some (v :: vs)
    | _, _ => none

/-- The zero identifier `primitive.NilObjectID`. -/
def NilObjectID : ObjectID := List.replicate 24 0

/-- The length of a text in bytes (Go's `len` of a string). -/
def byteLength : List Char → Nat
  | [] => 0
  | c :: cs => c.utf8Size + byteLength cs

/-- The first byte that is no hexadecimal digit: the leading byte of the
first character that is none (`0` when there is none). -/
def firstBadByte : List Char → Nat
  | [] => 0
  | c :: cs =>
    match hexVal c with
    | some _ => firstBadByte cs
    | none => ((String.utf8EncodeChar c).headD 0).toNat

/-- Model of `primitive.ObjectIDFromHex`: a text of 24 bytes, all of them
hexadecimal digits.  A wrong length is the driver's `ErrInvalidHex`; a byte that
is no digit is the error of `hex.Decode`. -/
def ObjectIDFromHex (s : String) : ObjectID × Option Error :=
  if byteLength s.data ≠ 24 then (NilObjectID, some .ErrInvalidHex)
  else
    match hexDecode s.data with
    | none => (NilObjectID, some (.InvalidByteError (firstBadByte s.data)))
    | some oid => (oid, none)

/-- Model of `ObjectID.Hex`: the 24 lower-case digits. -/
def ObjectID.Hex (oid : ObjectID) : String := String.mk (oid.map hexChar)

/-! ## `models.User` and the collection -/

/-- Model of `models.User`.  An absent `refresh_hash` field decodes to the empty
string (`omitempty`). -/
structure User where
  ID : ObjectID
  Name : String
  Email : String
  Password : String
  RefreshTokenHash : String
  Created : Int
  Updated : Int
  deriving DecidableEq, Repr

/-- The `users` collection. -/
abbrev Store := List User

/-- What the environment supplies during one call. -/
structure Draw where
  /-- `time.Now()` read for `ExpiresAt`, in nanoseconds. -/
  nowExpires : Int
  /-- `time.Now()` read for `IssuedAt`. -/
  nowIssued : Int
  /-- `time.Now()` read for `Created` on insert. -/
  nowCreated : Int
  /-- `time.Now()` read for `Updated` on a write. -/
  nowUpdated : Int
  /-- `time.Now()` read by the token validator. -/
  nowValidate : Int
  /-- `time.Now()` read for the expiry of the cookies a handler sets. -/
  nowCookie : Int
  /-- Failure of `crypto/rand.Read`, if any. -/
  randErr : Option Error
  /-- The bytes `crypto/rand.Read` delivers, by position. -/
  entropy : Nat → Nat
  /-- The salt bcrypt draws. -/
  salt : Nat
  /-- The `_id` the driver generates for a document inserted without one. -/
  newID : ObjectID

/-- One millisecond, in nanoseconds. -/
def millisecond : Int := 1000000

/-- A `time.Time` as BSON stores it: a datetime of millisecond precision. -/
def bsonDateTime (t : Int) : Int := t / millisecond * millisecond

/-- Model of `UpdateOne`: rewrite the first document satisfying the filter. -/
def updateFirst (p : User → Bool) (f : User → User) : Store → Store
  | [] => []
  | u :: rest => if p u then f u :: rest else u :: updateFirst p f rest

/-! ## `repository.UserRepository` -/

/-- Model of `UserRepository.Create`: stamps the record and inserts it.  The record
reaches the driver with the zero `_id`, which `omitempty` drops, so the driver
assigns `d.newID`; the caller's struct keeps the zero identifier.  The insert is
refused when the identifier is already taken.  Returns the error, the
collection, and the caller's struct after the call. -/
def Create (d : Draw) (store : Store) (user : User) : Option Error × Store × User :=
  let user1 := { user with Created := d.nowCreated, Updated := d.nowUpdated }
  let stored := { user1 with Created := bsonDateTime d.nowCreated,
                             Updated := bsonDateTime d.nowUpdated }
  let doc := if stored.ID = NilObjectID then { stored with ID := d.newID } else stored
  if store.any (fun u => decide (u.ID = doc.ID)) then
    (some (.library "E11000 duplicate key error"), store, user1)
  else
    (none, store ++ [doc], user1)

/-- Model of `UserRepository.FindByEmail`. -/
def FindByEmail (store : Store) (email : String) : Option User × Option Error :=
  match store.find? (fun u => decide (u.Email = email)) with
  | none => (none, some .ErrUserNotFound)
  | some user => (some user, none)

/-- Model of `UserRepository.FindByID`. -/
def FindByID (store : Store) (id : String) : Option User × Option Error :=
  match ObjectIDFromHex id with
  | (_, some err) => (none, some err)
  | (oid, none) =>
    match store.find? (fun u => decide (u.ID = oid)) with
    | none => (none, some .ErrUserNotFound)
    | some user => (some user, none)

/-- Model of `UserRepository.UpdateRefreshHash`. -/
def UpdateRefreshHash (d : Draw) (store : Store) (userID hash : String) : Option Error × Store :=
  match ObjectIDFromHex userID with
  | (_, some err) => (some err, store)
  | (oid, none) =>
    (none, updateFirst (fun u => decide (u.ID = oid))
      (fun u => { u with RefreshTokenHash := hash, Updated := bsonDateTime d.nowUpdated }) store)

/-- Model of `UserRepository.ClearRefreshHash`. -/
def ClearRefreshHash (d : Draw) (store : Store) (userID : String) : Option Error × Store :=
  match ObjectIDFromHex userID with
  | (_, some err) => (some err, store)
  | (oid, none) =>
    (none, updateFirst (fun u => decide (u.ID = oid))
      (fun u => { u with RefreshTokenHash := "", Updated := bsonDateTime d.nowUpdated }) store)

/-! ## External libraries -/

/-- The `RegisteredClaims` of golang-jwt that the validator reads.  Times
are `NumericDate` values: whole seconds since the epoch. -/
structure RegisteredClaims where
  Subject : String
  ExpiresAt : Option Int
  NotBefore : Option Int
  IssuedAt : Option Int
  deriving DecidableEq, Repr

/-- A `jwt.Token` as the parser returns it. -/
structure Token where
  Method : String
  Claims : RegisteredClaims
  Signature : String
  Valid : Bool
  deriving DecidableEq, Repr

/-- The primitives of golang-jwt (v5) the code relies on. -/
structure JwtLib where
  /-- `Token.SigningString`: the encoded header and claims joined by a dot. -/
  SigningString : (alg : String) → RegisteredClaims → String
  /-- The MAC of a signing string under a key: signing method, key, text. -/
  hmac : (alg : String) → (key : String) → (text : String) → String
  /-- The compact serialisation: signing string, a dot, the encoded signature. -/
  compact : (text : String) → (sig : String) → String
  /-- Splitting and decoding a compact serialisation into the signing method,
  the claims, the signed text and the signature; `none` when malformed. -/
  decode : String → Option (String × RegisteredClaims × String × String)

/-- Libraries and helpers whose source is not part of the repository's
files: bcrypt, golang-jwt, and the password helpers `utils.HashPassword` and
`utils.CheckPassword` (called by `service`, defined in a file that is absent). -/
structure Externals where
  /-- `bcrypt.GenerateFromPassword`: password, cost, salt drawn. -/
  bcryptGenerate : (password : String) → (cost : Nat) → (salt : Nat) → Except Error String
  /-- `bcrypt.CompareHashAndPassword`: `none` when the password matches. -/
  bcryptCompare : (hash : String) → (password : String) → Option Error
  /-- `utils.HashPassword`: password and salt drawn, to hash and error. -/
  HashPassword : (password : String) → (salt : Nat) → String × Option Error
  /-- `utils.CheckPassword`: stored hash and candidate, `none` when it verifies. -/
  CheckPassword : (hash : String) → (password : String) → Option Error
  /-- The JWT library. -/
  jwt : JwtLib

/-- Model of `bcrypt.DefaultCost`. -/
def bcryptDefaultCost : Nat := 10

/-! ## `utils/token.go` -/

/-- The alphabet of `base64.RawURLEncoding`. -/
def b64Alphabet : List Char :=
  "ABCDEFGHIJKLMNOPQRSTUVWXYZabcdefghijklmnopqrstuvwxyz0123456789-_".data

/-- The character of a six-bit value. -/
def b64Char (n : Nat) : Char := b64Alphabet.getD n 'A'

/-- Model of `base64.RawURLEncoding.EncodeToString`, on bytes given as numbers. -/
def rawURLEncode : List Nat → List Char
  | a :: b :: c :: rest =>
    b64Char (a / 4) :: b64Char ((a % 4) * 16 + b / 16) :: b64Char ((b % 16) * 4 + c / 64)
      :: b64Char (c % 64) :: rawURLEncode rest
  | [a, b] => [b64Char (a / 4), b64Char ((a % 4) * 16 + b / 16), b64Char ((b % 16) * 4)]
  | [a] => [b64Char (a / 4), b64Char ((a % 4) * 16)]
  | [] => []

/-- Model of `utils.GenerateRandomToken`. -/
def GenerateRandomToken (d : Draw) (n : Nat) : String × Option Error :=
  match d.randErr with
  | some err => ("", some err)
  | none => (String.mk (rawURLEncode ((List.range n).map (fun i => d.entropy i % 256))), none)

/-- Model of `utils.HashToken`. -/
def HashToken (ext : Externals) (d : Draw) (token : String) : String × Option Error :=
  match ext.bcryptGenerate token bcryptDefaultCost d.salt with
  | .ok b => (b, none)
  | .error err => ("", some err)

/-- Model of `utils.CompareTokenHash`. -/
def CompareTokenHash (ext : Externals) (hash token : String) : Bool :=
  (ext.bcryptCompare hash token).isNone

/-! ## `utils/jwt.go` -/

/-- One second, in nanoseconds. -/
def second : Int := 1000000000

/-- Model of `jwt.NewNumericDate`: the time truncated to whole seconds. -/
def NewNumericDate (t : Int) : Int := t / second

/-- The signing methods golang-jwt registers whose type is
`*jwt.SigningMethodHMAC`. -/
def isHMAC (alg : String) : Bool := alg = "HS256" || alg = "HS384" || alg = "HS512"

/-- The signing methods `jwt.GetSigningMethod` knows. -/
def knownMethod (alg : String) : Bool :=
  ["HS256", "HS384", "HS512", "RS256", "RS384", "RS512", "ES256", "ES384", "ES512",
    "PS256", "PS384", "PS512", "EdDSA", "none"].contains alg

/-- The validator's check of `exp`: absent, or strictly after now. -/
def verifyExpiresAt (now : Int) (c : RegisteredClaims) : Option String :=
  match c.ExpiresAt with
  | none => none
  | some exp => if now < exp * second then none else some "token is expired"

/-- The validator's check of `nbf`: absent, or not after now. -/
def verifyNotBefore (now : Int) (c : RegisteredClaims) : Option String :=
  match c.NotBefore with
  | none => none
  | some nbf => if nbf * second ≤ now then none else some "token is not valid yet"

/-- The default claims validator of golang-jwt: `exp` and `nbf` are checked,
`iat` is not; the failures are collected and joined. -/
def validateClaims (now : Int) (c : RegisteredClaims) : Option Error :=
  match (verifyExpiresAt now c).toList ++ (verifyNotBefore now c).toList with
  | [] => none
  | errs => some (.library (", ".intercalate errs))

/-- Model of `jwt.ParseWithClaims` for a key function that maps the declared signing
method to a key: decode, look the method up, ask for the key, verify the MAC,
validate the claims. -/
def ParseWithClaims (lib : JwtLib) (keyFunc : String → Except Error String) (now : Int)
    (tokenStr : String) : Except Error Token :=
  match lib.decode tokenStr with
  | none => .error (.library "token is malformed")
  | some (alg, claims, text, sig) =>
    if !knownMethod alg then .error (.library "token is unverifiable: signing method (alg) is unavailable")
    else
      match keyFunc alg with
      | .error err =>
        .error (.library ("token is unverifiable: error while executing keyfunc: " ++ err.message))
      | .ok key =>
        if sig ≠ lib.hmac alg key text then
          .error (.library "token signature is invalid: signature is invalid")
        else
          match validateClaims now claims with
          | some err => .error (.library ("token has invalid claims: " ++ err.message))
          | none => .ok { Method := alg, Claims := claims, Signature := sig, Valid := true }

/-- The claim set `utils.GenerateToken` builds: the subject, the expiry at
the clock plus `ttl`, and the time of issue. -/
def issuedClaims (d : Draw) (userID : String) (ttl : Int) : RegisteredClaims :=
  { Subject := userID
    ExpiresAt := some (NewNumericDate (d.nowExpires + ttl))
    NotBefore := none
    IssuedAt := some (NewNumericDate d.nowIssued) }

/-- Model of `utils.GenerateToken`.  `ttl` is a `time.Duration` in nanoseconds.
Signing with HS256 and a byte-slice key has no failure of its own. -/
def GenerateToken (lib : JwtLib) (d : Draw) (userID secret : String) (ttl : Int) :
    String × Option Error :=
  let claims := issuedClaims d userID ttl
  let text := lib.SigningString "HS256" claims
  (lib.compact text (lib.hmac "HS256" secret text), none)

/-- Model of `utils.ValidateToken`. -/
def ValidateToken (lib : JwtLib) (d : Draw) (tokenStr secret : String) : String × Option Error :=
  match ParseWithClaims lib
      (fun alg => if isHMAC alg then .ok secret else .error .invalidSigningMethod)
      d.nowValidate tokenStr with
  | .error err => ("", some err)
  | .ok token =>
    if token.Valid then (token.Claims.Subject, none) else ("", some .invalidToken)

/-! ## `strings.SplitN` -/

/-- Cut a text at the first occurrence of a separator character. -/
def cutAt (sep : Char) : List Char → Option (List Char × List Char)
  | [] => none
  | c :: cs =>
    if c = sep then some ([], cs)
    else
      match cutAt sep cs with
      | none => none
      | some (before, after) => some (c :: before, after)

/-- Model of `strings.SplitN` for a one-character separator and a count `n ≥ 0`: at
most `n` pieces, the last one the unsplit remainder. -/
def splitNChars (sep : Char) : Nat → List Char → List (List Char)
  | 0, _ => []
  | 1, s => [s]
  | n + 2, s =>
    match cutAt sep s with
    | none => [s]
    | some (before, after) => before :: splitNChars sep (n + 1) after

/-- Model of `strings.SplitN(s, sep, n)` on strings. -/
def SplitN (s : String) (sep : Char) (n : Nat) : List String :=
  (splitNChars sep n s.data).map String.mk

/-- Model of `strings.Split(s, sep)`: all pieces. -/
def Split (s : String) (sep : Char) : List String :=
  SplitN s sep (s.data.length + 1)

/-! ## `service.AuthService` -/

/-- Model of `service.AuthService`; the repository it holds is the `Store` threaded
through the calls. -/
structure AuthService where
  jwtSecret : String
  refreshSecret : String
  accessTTL : Int

/-- Model of `service.NewAuthService`: the access tokens live fifteen minutes. -/
def NewAuthService (jwtSecret refreshSecret : String) : AuthService :=
  { jwtSecret := jwtSecret, refreshSecret := refreshSecret, accessTTL := 15 * 60 * second }

/-- Model of `AuthService.Register`. -/
def Register (ext : Externals) (d : Draw) (store : Store) (name email password : String) :
    (Option User × Option Error) × Store :=
  match FindByEmail store email with
  | (_, none) => ((none, some .emailExists), store)
  | (_, some _) =>
    match ext.HashPassword password d.salt with
    | (_, some err) => ((none, some err), store)
    | (hashed, none) =>
      let user : User :=
        { ID := NilObjectID, Name := name, Email := email, Password := hashed,
          RefreshTokenHash := "", Created := 0, Updated := 0 }
      match Create d store user with
      | (some err, store1, _) => ((none, some err), store1)
      | (none, store1, user1) => ((some user1, none), store1)

/-- Model of `AuthService.Login`.  It only reads the repository, so the store
it returns is the store it was given.  The repository never returns a nil user
with a nil error; that case is kept only to make the match total. -/
def Login (ext : Externals) (s : AuthService) (d : Draw) (store : Store)
    (email password : String) : (String × Option User × Option Error) × Store :=
  match FindByEmail store email with
  | (_, some _) => (("", none, some .invalidCredentials), store)
  | (none, none) => (("", none, some (.library "nil pointer dereference")), store)
  | (some user, none) =>
    match ext.CheckPassword user.Password password with
    | some _ => (("", none, some .invalidCredentials), store)
    | none =>
      match GenerateToken ext.jwt d user.ID.Hex s.jwtSecret s.accessTTL with
      | (_, some err) => (("", none, some err), store)
      | (token, none) => ((token, some user, none), store)

/-- Model of `AuthService.GenerateRefresh`. -/
def GenerateRefresh (ext : Externals) (d : Draw) (store : Store) (userID : String) :
    (String × Option Error) × Store :=
  match GenerateRandomToken d 32 with
  | (_, some err) => (("", some err), store)
  | (randTok, none) =>
    let token := userID ++ ":" ++ randTok
    match HashToken ext d randTok with
    | (_, some err) => (("", some err), store)
    | (hash, none) =>
      match UpdateRefreshHash d store userID hash with
      | (some err, store1) => (("", some err), store1)
      | (none, store1) => ((token, none), store1)

/-- Model of `AuthService.RefreshAccess` from line 96 on: the work done once the
token has been split into the user identifier and the secret. -/
def refreshAccessFrom (ext : Externals) (s : AuthService) (d : Draw) (store : Store)
    (sub raw : String) : (String × String × Option User × Option Error) × Store :=
  match FindByID store sub with
  | (_, some err) => (("", "", none, some err), store)
  | (none, none) => (("", "", none, some (.library "nil pointer dereference")), store)
  | (some user, none) =>
    if user.RefreshTokenHash = "" then (("", "", none, some .noRefreshStored), store)
    else if !CompareTokenHash ext user.RefreshTokenHash raw then
      (("", "", none, some .refreshMismatch), store)
    else
      match GenerateToken ext.jwt d user.ID.Hex s.jwtSecret s.accessTTL with
      | (_, some err) => (("", "", none, some err), store)
      | (accessToken, none) =>
        match GenerateRefresh ext d store user.ID.Hex with
        | ((_, some err), store1) => (("", "", none, some err), store1)
        | ((newRefresh, none), store1) => ((accessToken, newRefresh, some user, none), store1)

/-- Model of `AuthService.RefreshAccess`. -/
def RefreshAccess (ext : Externals) (s : AuthService) (d : Draw) (store : Store)
    (refreshToken : String) : (String × String × Option User × Option Error) × Store :=
  match SplitN refreshToken ':' 2 with
  | [sub, raw] => refreshAccessFrom ext s d store sub raw
  | _ => (("", "", none, some .invalidRefreshFormat), store)

/-- Model of `AuthService.Logout`. -/
def Logout (d : Draw) (store : Store) (userID : String) : Option Error × Store :=
  ClearRefreshHash d store userID

/-! ## `config`, `middleware` and `handlers` -/

/-- Model of `config.Config`. -/
structure Config where
  MongoURI : String
  JWTSecret : String
  JWTRefreshSecret : String
  Port : String

/-- A cookie a handler sets (`HTTPOnly`, not `Secure`, `SameSite=Lax`). -/
structure Cookie where
  Name : String
  Value : String
  Expires : Int
  deriving DecidableEq, Repr

/-- The JSON body of a request once parsed into the handler's struct. -/
structure Body where
  Name : String
  Email : String
  Password : String
  deriving DecidableEq, Repr

/-- An HTTP request as the handlers read it; `body = none` when
`BodyParser` fails. -/
structure Request where
  method : String
  path : String
  cookies : List (String × String)
  headers : List (String × String)
  body : Option Body

/-- The reply a handler builds: status, the entries of the JSON map, cookies
set and cookies cleared. -/
structure Response where
  status : Nat
  json : List (String × String)
  setCookies : List Cookie
  clearedCookies : List String
  deriving DecidableEq, Repr

/-- A `fiber.Ctx`: the request, the per-request locals and the reply. -/
structure Ctx where
  req : Request
  locals : List (String × String)
  resp : Response

/-- Model of `c.Cookies(name)`: the value, or the empty string. -/
def Ctx.Cookies (c : Ctx) (name : String) : String :=
  ((c.req.cookies.find? (fun kv => decide (kv.1 = name))).map (fun kv => kv.2)).getD ""

/-- A header name with its letters in lower case. -/
def lowerName (name : String) : String := String.mk (name.data.map Char.toLower)

/-- Model of `c.Get(name)`: the header, whatever the case of the letters of
its name, or the empty string. -/
def Ctx.Get (c : Ctx) (name : String) : String :=
  ((c.req.headers.find? (fun kv => decide (lowerName kv.1 = lowerName name))).map
    (fun kv => kv.2)).getD ""

/-- Model of `c.Locals(name)`: the stored value, or nil. -/
def Ctx.Locals (c : Ctx) (name : String) : Option String :=
  (c.locals.find? (fun kv => decide (kv.1 = name))).map (fun kv => kv.2)

/-- Model of `c.Locals(name, value)`. -/
def Ctx.setLocal (c : Ctx) (name value : String) : Ctx :=
  { c with locals := (name, value) :: c.locals }

/-- Model of `c.Status(status).JSON(m)`. -/
def Ctx.JSON (c : Ctx) (status : Nat) (m : List (String × String)) : Ctx :=
  { c with resp := { c.resp with status := status, json := m } }

/-- Model of `c.Cookie(cookie)`. -/
def Ctx.Cookie (c : Ctx) (cookie : Cookie) : Ctx :=
  { c with resp := { c.resp with setCookies := c.resp.setCookies ++ [cookie] } }

/-- Model of `c.ClearCookie(name)`. -/
def Ctx.ClearCookie (c : Ctx) (name : String) : Ctx :=
  { c with resp := { c.resp with clearedCookies := c.resp.clearedCookies ++ [name] } }

/-- A handler: it may change the context and the store, and says whether it
passed control on with `c.Next()`. -/
abbrev Handler := Draw → Ctx → Store → Ctx × Store × Bool

/-- Model of `middleware.AuthMiddleware`. -/
def AuthMiddleware (ext : Externals) (cfg : Config) : Handler := fun d c store =>
  let fromCookie := c.Cookies "access_token"
  let token : Except Ctx String :=
    if fromCookie = "" then
      let authHeader := c.Get "Authorization"
      if authHeader = "" then .error (c.JSON 401 [("error", "missing token")])
      else
        match Split authHeader ' ' with
        | [scheme, tok] =>
          if scheme ≠ "Bearer" then .error (c.JSON 401 [("error", "invalid Authorization header")])
          else .ok tok
        | _ => .error (c.JSON 401 [("error", "invalid Authorization header")])
    else .ok fromCookie
  match token with
  | .error reply => (reply, store, false)
  | .ok token =>
    match ValidateToken ext.jwt d token cfg.JWTSecret with
    | (_, some _) => (c.JSON 401 [("error", "invalid or expired token")], store, false)
    | (userID, none) => (c.setLocal "user_id" userID, store, true)

/-- Model of `handlers.AuthHandler`. -/
structure AuthHandler where
  authService : AuthService
  cfg : Config

/-- Model of `handlers.NewAuthHandler`. -/
def NewAuthHandler (authService : AuthService) (cfg : Config) : AuthHandler :=
  { authService := authService, cfg := cfg }

/-- Fifteen minutes, in nanoseconds. -/
def accessCookieLife : Int := 15 * 60 * second

/-- Seven days, in nanoseconds. -/
def refreshCookieLife : Int := 7 * 24 * 3600 * second

/-- Model of `AuthHandler.Register`.  The parser's own message, sent under
`details` when the body cannot be parsed, is left out of the reply. -/
def AuthHandler.Register (ext : Externals) (_h : AuthHandler) : Handler := fun d c store =>
  match c.req.body with
  | none => (c.JSON 400 [("error", "invalid request")], store, false)
  | some body =>
    match SecureAuth.Register ext d store body.Name body.Email body.Password with
    | ((_, some err), store1) => (c.JSON 400 [("error", err.message)], store1, false)
    | ((none, none), store1) => (c.JSON 500 [("error", "nil pointer dereference")], store1, false)
    | ((some user, none), store1) =>
      (c.JSON 201 [("id", user.ID.Hex), ("name", user.Name), ("email", user.Email)], store1, false)

/-- Model of `AuthHandler.Login`.  The parser's own message under `details`
is left out of the reply to an unparsable body. -/
def AuthHandler.Login (ext : Externals) (h : AuthHandler) : Handler := fun d c store =>
  match c.req.body with
  | none => (c.JSON 400 [("error", "invalid request")], store, false)
  | some body =>
    match SecureAuth.Login ext h.authService d store body.Email body.Password with
    | ((_, _, some err), store0) => (c.JSON 401 [("error", err.message)], store0, false)
    | ((_, none, none), store0) =>
      (c.JSON 500 [("error", "nil pointer dereference")], store0, false)
    | ((token, some user, none), store0) =>
      match GenerateRefresh ext d store0 user.ID.Hex with
      | ((_, some err), store1) =>
        (c.JSON 500 [("error", "failed to create refresh token"), ("details", err.message)],
          store1, false)
      | ((refresh, none), store1) =>
        let c1 := c.Cookie
          { Name := "access_token", Value := token, Expires := d.nowCookie + accessCookieLife }
        let c2 := c1.Cookie
          { Name := "refresh_token", Value := refresh, Expires := d.nowCookie + refreshCookieLife }
        (c2.JSON 200 [("user.id", user.ID.Hex), ("user.name", user.Name),
          ("user.email", user.Email)], store1, false)

/-- Model of `AuthHandler.Refresh`. -/
def AuthHandler.Refresh (ext : Externals) (h : AuthHandler) : Handler := fun d c store =>
  let refresh := c.Cookies "refresh_token"
  if refresh = "" then (c.JSON 401 [("error", "missing refresh token")], store, false)
  else
    match RefreshAccess ext h.authService d store refresh with
    | ((_, _, _, some err), store1) => (c.JSON 401 [("error", err.message)], store1, false)
    | ((access, newRefresh, _, none), store1) =>
      let c1 := c.Cookie
        { Name := "access_token", Value := access, Expires := d.nowCookie + accessCookieLife }
      let c2 := c1.Cookie
        { Name := "refresh_token", Value := newRefresh, Expires := d.nowCookie + refreshCookieLife }
      (c2.JSON 200 [("message", "token refreshed")], store1, false)

/-- Model of `AuthHandler.Logout`. -/
def AuthHandler.Logout (_h : AuthHandler) : Handler := fun d c store =>
  match c.Locals "user_id" with
  | none =>
    let c1 := (c.ClearCookie "access_token").ClearCookie "refresh_token"
    ({ c1 with resp := { c1.resp with status := 200 } }, store, false)
  | some userID =>
    let store1 := (SecureAuth.Logout d store userID).2
    let c1 := (c.ClearCookie "access_token").ClearCookie "refresh_token"
    (c1.JSON 200 [("message", "logged out")], store1, false)

/-- Model of `AuthHandler.Me`. -/
def AuthHandler.Me (_h : AuthHandler) : Handler := fun _ c store =>
  match c.Locals "user_id" with
  | none => (c.JSON 401 [("error", "unauthenticated")], store, false)
  | some userID => (c.JSON 200 [("user_id", userID)], store, false)

/-- An entry of the router's stack: a middleware mounted on a path prefix
(`Use`), or a handler for one method and path. -/
structure Route where
  use : Bool
  method : String
  path : String
  handler : Handler

/-- Whether an entry applies to a request: a middleware by path prefix, for
every method; a handler by method and path. -/
def Route.applies (r : Route) (req : Request) : Bool :=
  if r.use then r.path.data.isPrefixOf req.path.data
  else decide (r.method = req.method) && decide (r.path = req.path)

/-- Model of `handlers.SetupRoutes`: the stack it registers, in order. -/
def SetupRoutes (ext : Externals) (authService : AuthService) (cfg : Config) : List Route :=
  let handler := NewAuthHandler authService cfg
  let api := "/api/v1"
  let guarded := api ++ "/user"
  [ { use := false, method := "POST", path := api ++ "/register", handler := handler.Register ext },
    { use := false, method := "POST", path := api ++ "/login", handler := handler.Login ext },
    { use := false, method := "POST", path := api ++ "/refresh", handler := handler.Refresh ext },
    { use := false, method := "POST", path := api ++ "/logout", handler := handler.Logout },
    { use := true, method := "", path := guarded, handler := AuthMiddleware ext cfg },
    { use := false, method := "GET", path := guarded ++ "/me", handler := handler.Me } ]

/-- Whether a handler is registered for the path of the request under
another method (the router's `methodExist`; middleware entries do not count). -/
def methodExist (routes : List Route) (req : Request) : Bool :=
  routes.any (fun r => !r.use && decide (r.method ≠ req.method) && decide (r.path = req.path))

/-- The router: the entries that apply run in registration order, each one
only if the one before passed control on.  When the entries run out, the
framework replies 405 if no entry applied and the path is registered under
another method, and 404 otherwise; the message of that reply is recorded under
the key `error`.  `all` is the whole stack, `applied` tells whether an entry has
applied so far. -/
def dispatch (d : Draw) (all : List Route) : Bool → List Route → Ctx → Store → Ctx × Store
  | applied, [], c, store =>
    if !applied && methodExist all c.req then
      (c.JSON 405 [("error", "Method Not Allowed")], store)
    else (c.JSON 404 [("error", "Cannot " ++ c.req.method ++ " " ++ c.req.path)], store)
  | applied, r :: rest, c, store =>
    if r.applies c.req then
      match r.handler d c store with
      | (c1, store1, true) => dispatch d all true rest c1 store1
      | (c1, store1, false) => (c1, store1)
    else dispatch d all applied rest c store

/-- Serving one request with the application `cmd/main.go` assembles. -/
def serve (ext : Externals) (cfg : Config) (d : Draw) (req : Request) (store : Store) :
    Response × Store :=
  let authService := NewAuthService cfg.JWTSecret cfg.JWTRefreshSecret
  let start : Ctx :=
    { req := req, locals := [], resp := { status := 200, json := [], setCookies := [], clearedCookies := [] } }
  let routes := SetupRoutes ext authService cfg
  let out := dispatch d routes false routes start store
  (out.1.resp, out.2)

/-! ## The frame predicate -/

/-- A record before and after a call, for the frame property: identifier, name,
email, password hash and creation time are the same, and the record differs at
all (in its refresh hash or update time) only if it is the one the call
addresses (`addressed`). -/
def keepsCredential (addressed : User → Prop) (a b : User) : Prop :=
  a.ID = b.ID ∧ a.Name = b.Name ∧ a.Email = b.Email ∧ a.Password = b.Password ∧
    a.Created = b.Created ∧ (a ≠ b → addressed a)

/-! ## A small instance of the external libraries

Used to evaluate the definitions on concrete inputs.  The hash is the secret
behind a fixed marker, the MAC is the key and the text side by side, and a
token is made of fields that carry their length in front. -/

/-- The decimal digit of a number below ten. -/
def digitChar (n : Nat) : Char := "0123456789".data.getD n '0'

/-- The value of a decimal digit. -/
def digitVal (c : Char) : Option Nat :=
  if c.isDigit then some (c.toNat - 48) else none

/-- The decimal digits of a number, most significant first, in front of
`acc`; `fuel` bounds the number of digits. -/
def decimalAux : Nat → Nat → List Char → List Char
  | 0, _, acc => acc
  | fuel + 1, n, acc =>
    if n < 10 then digitChar n :: acc
    else decimalAux fuel (n / 10) (digitChar (n % 10) :: acc)

/-- A number in decimal. -/
def decimal (n : Nat) : List Char := decimalAux (n + 1) n []

/-- Reading decimal digits on top of a value read so far. -/
def readDigits (start : Option Nat) (cs : List Char) : Option Nat :=
  cs.foldl (fun acc c =>
    match acc, digitVal c with
    | some n, some v => some (10 * n + v)
    | _, _ => none) start

/-- Decimal digits to a number; `none` on any other character or on no
digit at all. -/
def readNat : List Char → Option Nat
  | [] => none
  | c :: cs => readDigits (some 0) (c :: cs)

/-- A field in front of the rest: its length in decimal, a colon, the field. -/
def frame (field rest : List Char) : List Char :=
  decimal field.length ++ ':' :: (field ++ rest)

/-- Take one framed field off the front. -/
def unframe (cs : List Char) : Option (List Char × List Char) :=
  match cutAt ':' cs with
  | none => none
  | some (len, rest) =>
    match readNat len with
    | none => none
    | some n => if n ≤ rest.length then some (rest.take n, rest.drop n) else none

/-- An optional time as a field: empty when absent, else the seconds in
decimal behind a minus sign when negative. -/
def showTime : Option Int → List Char
  | none => []
  | some t => if t < 0 then '-' :: decimal t.natAbs else decimal t.toNat

/-- The field back to an optional time; the outer `none` is a parse failure. -/
def readTime : List Char → Option (Option Int)
  | [] => some none
  | c :: cs =>
    if c = '-' then (readNat cs).map (fun (n : Nat) => some (-(Int.ofNat n)))
    else (readNat (c :: cs)).map (fun (n : Nat) => some (Int.ofNat n))

/-- The demonstration JWT codec.  The signed text is the framed signing
method, subject and three times; a token is the framed signed text followed by
the signature. -/
def demoJwt : JwtLib where
  SigningString alg c :=
    String.mk (frame alg.data (frame c.Subject.data (frame (showTime c.ExpiresAt)
      (frame (showTime c.NotBefore) (frame (showTime c.IssuedAt) [])))))
  hmac alg key text := alg ++ "/" ++ key ++ "/" ++ text
  compact text sig := String.mk (frame text.data sig.data)
  decode tok :=
    match unframe tok.data with
    | none => none
    | some (text, sig) =>
      match unframe text with
      | none => none
      | some (alg, r1) =>
        match unframe r1 with
        | none => none
        | some (sub, r2) =>
          match unframe r2 with
          | none => none
          | some (exp, r3) =>
            match unframe r3 with
            | none => none
            | some (nbf, r4) =>
              match unframe r4, readTime exp, readTime nbf with
              | some (iat, []), some e, some n =>
                match readTime iat with
                | none => none
                | some i =>
                  some (String.mk alg,
                    { Subject := String.mk sub, ExpiresAt := e, NotBefore := n, IssuedAt := i },
                    String.mk text, String.mk sig)
              | _, _, _ => none

/-- The demonstration libraries. -/
def demoExt : Externals where
  bcryptGenerate password _ _ := .ok ("$2a$10$" ++ password)
  bcryptCompare hash password :=
    if hash = "$2a$10$" ++ password then none
    else some (.library "hashedPassword is not the hash of the given password")
  HashPassword password _ := ("$2a$10$" ++ password, none)
  CheckPassword hash password :=
    if hash = "$2a$10$" ++ password then none
    else some (.library "hashedPassword is not the hash of the given password")
  jwt := demoJwt

/-- A demonstration draw: the clock stands at ten and a half seconds, the
random bytes are all `fill`. -/
def demoDraw (fill : Nat) : Draw :=
  { nowExpires := 10500000000, nowIssued := 10500000000, nowCreated := 10500000000,
    nowUpdated := 10500000000, nowValidate := 10500000000, nowCookie := 10500000000,
    randErr := none, entropy := fun _ => fill, salt := 0,
    newID := List.replicate 23 0 ++ [1] }

/-- A demonstration service. -/
def demoService : AuthService := NewAuthService "supersecretjwtkey" "superrefreshsecretkey"

/-- A demonstration configuration (the defaults of `config.LoadConfig`). -/
def demoConfig : Config :=
  { MongoURI := "mongodb://localhost:27017/testFiber", JWTSecret := "supersecretjwtkey",
    JWTRefreshSecret := "superrefreshsecretkey", Port := "8080" }

/-- A demonstration record: Alice, with an active refresh session whose
secret is `s3cret`. -/
def alice : User :=
  { ID := List.replicate 23 0 ++ [10], Name := "Alice", Email := "alice@x.com",
    Password := "$2a$10$pw1", RefreshTokenHash := "$2a$10$s3cret", Created := 1, Updated := 2 }

/-- The identifier of `alice` in hexadecimal. -/
def aliceID : String := "00000000000000000000000a"

/-! ## Lemmas: hexadecimal identifiers -/

theorem hexVal_ne_colon {c : Char} {v : Fin 16} (h : hexVal c = some v) : c ≠ ':' := by
  intro hc
  subst hc
  have hnone : hexVal ':' = none := by decide
  rw [hnone] at h
  cases h

theorem hexVal_hexChar (v : Fin 16) : hexVal (hexChar v) = some v := by
  revert v
  decide

theorem hexDecode_map_hexChar (oid : List (Fin 16)) : hexDecode (oid.map hexChar) = some oid := by
  induction oid with
  | nil => rfl
  | cons v vs ih => simp [hexDecode, hexVal_hexChar, ih]

theorem hexDecode_length : ∀ (cs : List Char) (vs : List (Fin 16)),
    hexDecode cs = some vs → vs.length = cs.length := by
  intro cs
  induction cs with
  | nil =>
    intro vs h
    simp [hexDecode] at h
    simp [← h]
  | cons c cs ih =>
    intro vs h
    unfold hexDecode at h
    split at h
    · rename_i v ws _ hws
      simp only [Option.some.injEq] at h
      subst h
      simp [ih ws hws]
    · simp at h

theorem hexDecode_no_colon : ∀ (cs : List Char) (vs : List (Fin 16)),
    hexDecode cs = some vs → ':' ∉ cs := by
  intro cs
  induction cs with
  | nil => intro vs _; simp
  | cons c cs ih =>
    intro vs h
    unfold hexDecode at h
    split at h
    · rename_i v ws hv hws
      intro hmem
      rcases List.mem_cons.mp hmem with hc | hc
      · exact hexVal_ne_colon hv hc.symm
      · exact ih ws hws hc
    · simp at h

theorem hexVal_ascii {c : Char} {v : Fin 16} (h : hexVal c = some v) : c.utf8Size = 1 := by
  have hmem : c ∈ "0123456789abcdefABCDEF".data := by
    by_contra hc
    have hnone : hexVal c = none := by
      simp only [String.data, List.mem_cons, List.mem_singleton, not_or, List.not_mem_nil,
        or_false] at hc
      simp [hexVal, hc]
    rw [hnone] at h
    cases h
  have key : ∀ x ∈ "0123456789abcdefABCDEF".data, x.utf8Size = 1 := by decide
  exact key c hmem

theorem hexDecode_byteLength : ∀ (cs : List Char) (vs : List (Fin 16)),
    hexDecode cs = some vs → byteLength cs = cs.length := by
  intro cs
  induction cs with
  | nil => intro vs _; rfl
  | cons c cs ih =>
    intro vs h
    unfold hexDecode at h
    split at h
    · rename_i v ws hv hws
      simp [byteLength, hexVal_ascii hv, ih ws hws]
      omega
    · simp at h

theorem byteLength_map_hexChar (oid : List (Fin 16)) :
    byteLength (oid.map hexChar) = oid.length := by
  induction oid with
  | nil => rfl
  | cons v vs ih =>
    have hv : (hexChar v).utf8Size = 1 := by
      revert v
      decide
    simp [byteLength, hv, ih]
    omega

/-- What a successful `ObjectIDFromHex` says about its argument. -/
theorem ObjectIDFromHex_ok {s : String} {oid : ObjectID} (h : ObjectIDFromHex s = (oid, none)) :
    s.data.length = 24 ∧ hexDecode s.data = some oid := by
  unfold ObjectIDFromHex at h
  split at h
  · simp at h
  · rename_i hlen
    split at h
    · simp at h
    · rename_i o ho
      simp only [Prod.mk.injEq, and_true] at h
      subst h
      have hb : byteLength s.data = 24 := by simpa using hlen
      rw [hexDecode_byteLength _ _ ho] at hb
      exact ⟨hb, ho⟩

/-- The outcomes of `ObjectIDFromHex`: an identifier, or the zero identifier
with an error. -/
theorem ObjectIDFromHex_cases (s : String) :
    (∃ oid, ObjectIDFromHex s = (oid, none)) ∨
      ∃ err, ObjectIDFromHex s = (NilObjectID, some err) := by
  unfold ObjectIDFromHex
  split
  · exact Or.inr ⟨_, rfl⟩
  · split
    · exact Or.inr ⟨_, rfl⟩
    · exact Or.inl ⟨_, rfl⟩

theorem ObjectIDFromHex_no_colon {s : String} {oid : ObjectID}
    (h : ObjectIDFromHex s = (oid, none)) : ':' ∉ s.data :=
  hexDecode_no_colon _ _ (ObjectIDFromHex_ok h).2

/-- Printing an identifier that came out of `ObjectIDFromHex` and reading it
back gives the same identifier. -/
theorem ObjectIDFromHex_Hex {s : String} {oid : ObjectID} (h : ObjectIDFromHex s = (oid, none)) :
    ObjectIDFromHex oid.Hex = (oid, none) := by
  obtain ⟨hlen, hdec⟩ := ObjectIDFromHex_ok h
  have hl : oid.length = 24 := by rw [hexDecode_length _ _ hdec, hlen]
  unfold ObjectIDFromHex ObjectID.Hex
  simp [hl, hexDecode_map_hexChar, byteLength_map_hexChar]

theorem Hex_length {s : String} {oid : ObjectID} (h : ObjectIDFromHex s = (oid, none)) :
    oid.Hex.data.length = s.data.length := by
  obtain ⟨hlen, hdec⟩ := ObjectIDFromHex_ok h
  simp [ObjectID.Hex, hexDecode_length _ _ hdec]

/-! ## Lemmas: splitting at the separator -/

theorem cutAt_none {sep : Char} : ∀ {cs : List Char}, sep ∉ cs → cutAt sep cs = none := by
  intro cs
  induction cs with
  | nil => intro _; rfl
  | cons c cs ih =>
    intro h
    have hc : c ≠ sep := fun e => h (by simp [e])
    have hcs : sep ∉ cs := fun e => h (List.mem_cons_of_mem _ e)
    simp [cutAt, hc, ih hcs]

theorem cutAt_append {sep : Char} : ∀ {a : List Char} (b : List Char), sep ∉ a →
    cutAt sep (a ++ sep :: b) = some (a, b) := by
  intro a
  induction a with
  | nil => intro b _; simp [cutAt]
  | cons c cs ih =>
    intro b h
    have hc : c ≠ sep := fun e => h (by simp [e])
    have hcs : sep ∉ cs := fun e => h (List.mem_cons_of_mem _ e)
    simp [cutAt, hc, ih b hcs]

theorem mem_split_first {sep : Char} : ∀ {cs : List Char}, sep ∈ cs →
    ∃ a b, cs = a ++ sep :: b ∧ sep ∉ a := by
  intro cs
  induction cs with
  | nil => intro h; simp at h
  | cons c cs ih =>
    intro h
    by_cases hc : c = sep
    · exact ⟨[], cs, by simp [hc], by simp⟩
    · have hcs : sep ∈ cs := by
        rcases List.mem_cons.mp h with e | e
        · exact absurd e.symm hc
        · exact e
      obtain ⟨a, b, hab, ha⟩ := ih hcs
      refine ⟨c :: a, b, by simp [hab], ?_⟩
      intro hmem
      rcases List.mem_cons.mp hmem with e | e
      · exact hc e.symm
      · exact ha e

theorem SplitN_no_sep {s : String} (h : ':' ∉ s.data) : SplitN s ':' 2 = [s] := by
  simp [SplitN, splitNChars, cutAt_none h]

theorem SplitN_sep (sub raw : String) (h : ':' ∉ sub.data) :
    SplitN (sub ++ ":" ++ raw) ':' 2 = [sub, raw] := by
  have hd : (sub ++ ":" ++ raw).data = sub.data ++ ':' :: raw.data := by
    simp [String.data_append]
  simp [SplitN, splitNChars, hd, cutAt_append raw.data h]

/-! ## Lemmas: the collection -/

theorem find_updateFirst (p : User → Bool) (f : User → User) (hf : ∀ u, p (f u) = p u) :
    ∀ store : Store, (updateFirst p f store).find? p = (store.find? p).map f := by
  intro store
  induction store with
  | nil => rfl
  | cons u rest ih =>
    by_cases hu : p u = true
    · simp [updateFirst, hu, List.find?, hf]
    · simp [updateFirst, hu, List.find?, ih]

theorem updateFirst_of_find_none (p : User → Bool) (f : User → User) :
    ∀ store : Store, store.find? p = none → updateFirst p f store = store := by
  intro store
  induction store with
  | nil => intro _; rfl
  | cons u rest ih =>
    intro h
    by_cases hu : p u = true
    · simp [List.find?, hu] at h
    · simp only [List.find?, hu] at h
      simp [updateFirst, hu, ih h]

/-- What `UpdateOne` can change: it keeps the documents in place, and a
document that differs afterwards satisfied the filter and became its image. -/
theorem updateFirst_frame (p : User → Bool) (f : User → User) (R : User → User → Prop)
    (hrefl : ∀ u, R u u) (hupd : ∀ u, p u = true → R u (f u)) :
    ∀ store : Store, List.Forall₂ R store (updateFirst p f store) := by
  intro store
  induction store with
  | nil => exact List.Forall₂.nil
  | cons u rest ih =>
    by_cases hu : p u = true
    · simp only [updateFirst, hu, if_true]
      exact List.Forall₂.cons (hupd u hu) (List.forall₂_same.mpr (fun x _ => hrefl x))
    · simp only [updateFirst, hu]
      exact List.Forall₂.cons (hrefl u) ih

theorem forall₂_refl_store (R : User → User → Prop) (hrefl : ∀ u, R u u) (store : Store) :
    List.Forall₂ R store store :=
  List.forall₂_same.mpr (fun x _ => hrefl x)

/-- A successful `FindByID`, taken apart. -/
theorem FindByID_ok {store : Store} {id : String} {u : User}
    (h : FindByID store id = (some u, none)) :
    ∃ oid, ObjectIDFromHex id = (oid, none) ∧
      store.find? (fun x => decide (x.ID = oid)) = some u ∧ u.ID = oid := by
  rcases ObjectIDFromHex_cases id with ⟨oid, ho⟩ | ⟨err, ho⟩
  · refine ⟨oid, ho, ?_⟩
    simp only [FindByID, ho] at h
    cases hf : store.find? (fun x => decide (x.ID = oid)) with
    | none => simp [hf] at h
    | some w =>
      simp only [hf, Prod.mk.injEq, Option.some.injEq, and_true] at h
      subst h
      exact ⟨rfl, by simpa using List.find?_some hf⟩
  · simp [FindByID, ho] at h

theorem FindByID_of_find {store : Store} {id : String} {oid : ObjectID} {u : User}
    (ho : ObjectIDFromHex id = (oid, none))
    (hf : store.find? (fun x => decide (x.ID = oid)) = some u) :
    FindByID store id = (some u, none) := by
  simp [FindByID, ho, hf]

/-- After the refresh hash of the first document with a given identifier has
been rewritten, `FindByID` returns that document with the new hash. -/
theorem FindByID_after_write {store : Store} {id : String} {oid : ObjectID} {u : User}
    (hash : String) (now : Int)
    (ho : ObjectIDFromHex id = (oid, none))
    (hf : store.find? (fun x => decide (x.ID = oid)) = some u) :
    FindByID (updateFirst (fun x => decide (x.ID = oid))
        (fun x => { x with RefreshTokenHash := hash, Updated := now }) store) id
      = (some { u with RefreshTokenHash := hash, Updated := now }, none) := by
  apply FindByID_of_find ho
  have h := find_updateFirst (fun x => decide (x.ID = oid))
    (fun x => { x with RefreshTokenHash := hash, Updated := now }) (fun _ => rfl) store
  rw [h, hf]
  rfl

/-- A token made of an identifier free of the separator, the separator and
a secret is redeemed as that identifier and that secret. -/
theorem RefreshAccess_of_sep (ext : Externals) (s : AuthService) (d : Draw) (store : Store)
    (sub raw : String) (h : ':' ∉ sub.data) :
    RefreshAccess ext s d store (sub ++ ":" ++ raw) = refreshAccessFrom ext s d store sub raw := by
  simp [RefreshAccess, SplitN_sep sub raw h]

/-! ## Refresh tokens: format, failed redemption, logout -/

/-- C8: `RefreshAccess` answers every refresh token without a `:` with the
error "invalid refresh token format", whatever the store holds and leaving it
as it was; a token with a `:` is `sub ++ ":" ++ raw` for exactly one `sub` free
of `:`, and it is handled as user identifier `sub` and secret `raw`. -/
theorem RefreshAccess_token_format (ext : Externals) (s : AuthService) (d : Draw) (store : Store) :
    (∀ token : String, ':' ∉ token.data →
      RefreshAccess ext s d store token = (("", "", none, some .invalidRefreshFormat), store)) ∧
    (∀ sub raw : String, ':' ∉ sub.data →
      RefreshAccess ext s d store (sub ++ ":" ++ raw) = refreshAccessFrom ext s d store sub raw) ∧
    (∀ token : String, ':' ∈ token.data →
      ∃ sub raw : String, token = sub ++ ":" ++ raw ∧ ':' ∉ sub.data) ∧
    Error.invalidRefreshFormat.message = "invalid refresh token format" := by
  refine ⟨?_, ?_, ?_, rfl⟩
  · intro token h
    simp [RefreshAccess, SplitN_no_sep h]
  · intro sub raw h
    exact RefreshAccess_of_sep ext s d store sub raw h
  · intro token h
    obtain ⟨a, b, hab, ha⟩ := mem_split_first h
    refine ⟨String.mk a, String.mk b, ?_, ha⟩
    apply String.ext
    simp [String.data_append, hab]

/-- Witness for C8: a token without separator, a token whose secret holds a
separator, and the decomposition of `a:b:c`. -/
theorem RefreshAccess_token_format_witness :
    (':' ∉ "s3cret".data ∧
      RefreshAccess demoExt demoService (demoDraw 7) [alice] "s3cret"
        = (("", "", none, some .invalidRefreshFormat), [alice])) ∧
    (':' ∉ aliceID.data ∧
      RefreshAccess demoExt demoService (demoDraw 7) [alice] (aliceID ++ ":" ++ "a:b")
        = refreshAccessFrom demoExt demoService (demoDraw 7) [alice] aliceID "a:b") ∧
    (':' ∈ "a:b:c".data ∧ ∃ sub raw : String, "a:b:c" = sub ++ ":" ++ raw ∧ ':' ∉ sub.data) :=
  ⟨⟨by decide,
      (RefreshAccess_token_format demoExt demoService (demoDraw 7) [alice]).1 "s3cret" (by decide)⟩,
    ⟨by decide,
      (RefreshAccess_token_format demoExt demoService (demoDraw 7) [alice]).2.1 aliceID "a:b"
        (by decide)⟩,
    ⟨by decide,
      (RefreshAccess_token_format demoExt demoService (demoDraw 7) [alice]).2.2.1 "a:b:c"
        (by decide)⟩⟩

/-- C2: for an existing user `uid`, once `Logout uid` has returned without
error, `RefreshAccess` of `uid:secret` fails with "no refresh token stored" for
every secret, returns empty tokens and no user, and writes nothing. -/
theorem logout_revokes_refresh (ext : Externals) (s : AuthService) (d d2 : Draw)
    (store store1 : Store) (uid secret : String) (u : User)
    (hu : FindByID store uid = (some u, none))
    (hl : Logout d store uid = (none, store1)) :
    RefreshAccess ext s d2 store1 (uid ++ ":" ++ secret)
        = (("", "", none, some .noRefreshStored), store1) ∧
      Error.noRefreshStored.message = "no refresh token stored" := by
  refine ⟨?_, rfl⟩
  obtain ⟨oid, ho, hf, _⟩ := FindByID_ok hu
  have hs : store1 = updateFirst (fun x => decide (x.ID = oid))
      (fun x => { x with RefreshTokenHash := "", Updated := bsonDateTime d.nowUpdated }) store := by
    simp only [Logout, ClearRefreshHash, ho, Prod.mk.injEq, true_and] at hl
    exact hl.symm
  have hfind : FindByID store1 uid
      = (some { u with RefreshTokenHash := "", Updated := bsonDateTime d.nowUpdated }, none) := by
    rw [hs]
    exact FindByID_after_write "" (bsonDateTime d.nowUpdated) ho hf
  rw [RefreshAccess_of_sep ext s d2 store1 uid secret (ObjectIDFromHex_no_colon ho)]
  simp [refreshAccessFrom, hfind]

/-- Witness for C2: Alice logs out, then her former token is refused. -/
theorem logout_revokes_refresh_witness :
    FindByID [alice] aliceID = (some alice, none) ∧
    Logout (demoDraw 7) [alice] aliceID
      = (none, [{ alice with RefreshTokenHash := "", Updated := 10500000000 }]) ∧
    RefreshAccess demoExt demoService (demoDraw 8)
        [{ alice with RefreshTokenHash := "", Updated := 10500000000 }] (aliceID ++ ":" ++ "s3cret")
      = (("", "", none, some .noRefreshStored),
          [{ alice with RefreshTokenHash := "", Updated := 10500000000 }]) :=
  ⟨by decide, by decide,
    (logout_revokes_refresh demoExt demoService (demoDraw 7) (demoDraw 8) [alice] _ aliceID
      "s3cret" alice (by decide) (by decide)).1⟩

/-- C3: when the secret of a refresh token does not verify against the
stored refresh hash of the user it names, `RefreshAccess` returns an error
("refresh token mismatch", or "no refresh token stored" when the user has no
hash) and the store after the call is the store before it. -/
theorem failed_redeem_changes_nothing (ext : Externals) (s : AuthService) (d : Draw)
    (store : Store) (token sub raw : String) (user : User)
    (hsplit : SplitN token ':' 2 = [sub, raw])
    (hu : FindByID store sub = (some user, none))
    (hbad : CompareTokenHash ext user.RefreshTokenHash raw = false) :
    RefreshAccess ext s d store token
      = (("", "", none,
          some (if user.RefreshTokenHash = "" then .noRefreshStored else .refreshMismatch)),
        store) := by
  simp only [RefreshAccess, hsplit, refreshAccessFrom, hu]
  by_cases hempty : user.RefreshTokenHash = ""
  · simp [hempty]
  · simp [hempty, hbad]

/-- Witness for C3: a stale secret for Alice is refused and her record stays. -/
theorem failed_redeem_changes_nothing_witness :
    SplitN (aliceID ++ ":" ++ "stale") ':' 2 = [aliceID, "stale"] ∧
    FindByID [alice] aliceID = (some alice, none) ∧
    CompareTokenHash demoExt alice.RefreshTokenHash "stale" = false ∧
    RefreshAccess demoExt demoService (demoDraw 7) [alice] (aliceID ++ ":" ++ "stale")
      = (("", "", none, some .refreshMismatch), [alice]) :=
  ⟨by decide, by decide, by decide,
    failed_redeem_changes_nothing demoExt demoService (demoDraw 7) [alice]
      (aliceID ++ ":" ++ "stale") aliceID "stale" alice (by decide) (by decide) (by decide)⟩

/-! ## Login and registration -/

/-- C5: `Login` returns the same result, the error "invalid email or
password" with an empty token and no user, when no record has the email and
when the record exists but the password does not verify against its hash. -/
theorem login_failures_indistinguishable (ext : Externals) (s : AuthService) (d : Draw)
    (store : Store) (email password : String)
    (h : (∀ u ∈ store, u.Email ≠ email) ∨
      ∃ user, store.find? (fun u => decide (u.Email = email)) = some user ∧
        ext.CheckPassword user.Password password ≠ none) :
    Login ext s d store email password = (("", none, some .invalidCredentials), store) ∧
      Error.invalidCredentials.message = "invalid email or password" := by
  refine ⟨?_, rfl⟩
  rcases h with hno | ⟨user, hf, hbad⟩
  · have hf : store.find? (fun u => decide (u.Email = email)) = none := by
      rw [List.find?_eq_none]
      intro u hu
      simpa using hno u hu
    simp [Login, FindByEmail, hf]
  · cases hc : ext.CheckPassword user.Password password with
    | none => exact absurd hc hbad
    | some e => simp [Login, FindByEmail, hf, hc]

/-- Witness for C5: an unknown email and a wrong password for Alice give the
same result. -/
theorem login_failures_indistinguishable_witness :
    (∀ u ∈ [alice], u.Email ≠ "bob@x.com") ∧
    ([alice].find? (fun u => decide (u.Email = "alice@x.com")) = some alice ∧
      demoExt.CheckPassword alice.Password "wrong" ≠ none) ∧
    Login demoExt demoService (demoDraw 7) [alice] "bob@x.com" "pw1"
      = (("", none, some .invalidCredentials), [alice]) ∧
    Login demoExt demoService (demoDraw 7) [alice] "alice@x.com" "wrong"
      = Login demoExt demoService (demoDraw 7) [alice] "bob@x.com" "pw1" :=
  have hno : ∀ u ∈ [alice], u.Email ≠ "bob@x.com" := by decide
  have hbad : [alice].find? (fun u => decide (u.Email = "alice@x.com")) = some alice ∧
      demoExt.CheckPassword alice.Password "wrong" ≠ none := by decide
  ⟨hno, hbad,
    (login_failures_indistinguishable demoExt demoService (demoDraw 7) [alice] "bob@x.com" "pw1"
      (Or.inl hno)).1,
    ((login_failures_indistinguishable demoExt demoService (demoDraw 7) [alice] "alice@x.com"
      "wrong" (Or.inr ⟨alice, hbad⟩)).1).trans
      ((login_failures_indistinguishable demoExt demoService (demoDraw 7) [alice] "bob@x.com"
        "pw1" (Or.inl hno)).1).symm⟩

/-- C6: when a record with the email exists, `Register` fails with "email
already exists" and the store is as before; when none exists, hashing returns
`hashed` without error and the insert is accepted (the generated identifier is
not taken), `Register` succeeds and the store grows by exactly one record, whose
name and email are the inputs and whose password field is `hashed`, which is
not the plaintext as soon as the hasher did not hand the plaintext back. -/
theorem register_contract (ext : Externals) (d : Draw) (store : Store)
    (name email password : String) :
    ((∃ u ∈ store, u.Email = email) →
      Register ext d store name email password = ((none, some .emailExists), store)) ∧
    ((∀ u ∈ store, u.Email ≠ email) → ∀ hashed : String,
      ext.HashPassword password d.salt = (hashed, none) →
      (∀ u ∈ store, u.ID ≠ d.newID) →
      ∃ doc : User,
        (Register ext d store name email password).2 = store ++ [doc] ∧
        (Register ext d store name email password).1.2 = none ∧
        doc.Name = name ∧ doc.Email = email ∧ doc.Password = hashed ∧
        doc.RefreshTokenHash = "" ∧ doc.ID = d.newID ∧
        (hashed ≠ password → doc.Password ≠ password)) ∧
    Error.emailExists.message = "email already exists" := by
  refine ⟨?_, ?_, rfl⟩
  · rintro ⟨u, hu, he⟩
    cases hf : store.find? (fun u => decide (u.Email = email)) with
    | none =>
      rw [List.find?_eq_none] at hf
      exact absurd he (by simpa using hf u hu)
    | some w => simp [Register, FindByEmail, hf]
  · intro hno hashed hh hid
    have hf : store.find? (fun u => decide (u.Email = email)) = none := by
      rw [List.find?_eq_none]
      intro u hu
      simpa using hno u hu
    have hany : store.any (fun u => decide (u.ID = d.newID)) = false := by
      rw [List.any_eq_false]
      intro u hu
      simpa using hid u hu
    refine ⟨{ ID := d.newID, Name := name, Email := email, Password := hashed,
              RefreshTokenHash := "", Created := bsonDateTime d.nowCreated,
              Updated := bsonDateTime d.nowUpdated }, ?_⟩
    simp [Register, FindByEmail, hf, hh, Create, hany]

/-- Witness for C6: registering under the email of Alice fails, registering Bob
appends one record holding the hash. -/
theorem register_contract_witness :
    ((∃ u ∈ [alice], u.Email = "alice@x.com") ∧
      Register demoExt (demoDraw 7) [alice] "Eve" "alice@x.com" "pw2"
        = ((none, some .emailExists), [alice])) ∧
    ((∀ u ∈ [alice], u.Email ≠ "bob@x.com") ∧
      demoExt.HashPassword "pw2" (demoDraw 7).salt = ("$2a$10$pw2", none) ∧
      (∀ u ∈ [alice], u.ID ≠ (demoDraw 7).newID) ∧
      ∃ doc : User,
        (Register demoExt (demoDraw 7) [alice] "Bob" "bob@x.com" "pw2").2 = [alice] ++ [doc] ∧
        (Register demoExt (demoDraw 7) [alice] "Bob" "bob@x.com" "pw2").1.2 = none ∧
        doc.Name = "Bob" ∧ doc.Email = "bob@x.com" ∧ doc.Password = "$2a$10$pw2" ∧
        doc.RefreshTokenHash = "" ∧ doc.ID = (demoDraw 7).newID ∧
        ("$2a$10$pw2" ≠ "pw2" → doc.Password ≠ "pw2")) :=
  ⟨⟨by decide,
      (register_contract demoExt (demoDraw 7) [alice] "Eve" "alice@x.com" "pw2").1 (by decide)⟩,
    by decide, by decide, by decide,
    (register_contract demoExt (demoDraw 7) [alice] "Bob" "bob@x.com" "pw2").2.1 (by decide)
      "$2a$10$pw2" (by decide) (by decide)⟩

/-! ## Issuing and rotating refresh tokens -/

theorem HashToken_ok {ext : Externals} {d : Draw} {secret hash : String} :
    HashToken ext d secret = (hash, none) ↔
      ext.bcryptGenerate secret bcryptDefaultCost d.salt = .ok hash := by
  unfold HashToken
  cases ext.bcryptGenerate secret bcryptDefaultCost d.salt with
  | ok b => simp
  | error e => simp

/-- A successful `GenerateRefresh`, taken apart. -/
theorem GenerateRefresh_ok {ext : Externals} {d : Draw} {store store1 : Store}
    {userID token : String}
    (h : GenerateRefresh ext d store userID = ((token, none), store1)) :
    ∃ secret hash oid, GenerateRandomToken d 32 = (secret, none) ∧
      HashToken ext d secret = (hash, none) ∧ ObjectIDFromHex userID = (oid, none) ∧
      token = userID ++ ":" ++ secret ∧
      store1 = updateFirst (fun x => decide (x.ID = oid))
        (fun x => { x with RefreshTokenHash := hash, Updated := bsonDateTime d.nowUpdated }) store := by
  unfold GenerateRefresh at h
  split at h
  · simp at h
  · rename_i secret hsec
    split at h
    · simp at h
    · rename_i hash hhash
      rcases ObjectIDFromHex_cases userID with ⟨oid, ho⟩ | ⟨err, ho⟩
      · refine ⟨secret, hash, oid, hsec, hhash, ho, ?_⟩
        simp only [UpdateRefreshHash, ho, Prod.mk.injEq, and_true] at h
        exact ⟨h.1.symm, h.2.symm⟩
      · simp [UpdateRefreshHash, ho] at h

/-- The result of `GenerateRefresh` when the environment delivers. -/
theorem GenerateRefresh_eq {ext : Externals} {d : Draw} (store : Store)
    {userID secret hash : String} {oid : ObjectID}
    (hsec : GenerateRandomToken d 32 = (secret, none))
    (hhash : HashToken ext d secret = (hash, none))
    (ho : ObjectIDFromHex userID = (oid, none)) :
    GenerateRefresh ext d store userID
      = ((userID ++ ":" ++ secret, none),
          updateFirst (fun x => decide (x.ID = oid))
            (fun x => { x with RefreshTokenHash := hash, Updated := bsonDateTime d.nowUpdated }) store) := by
  simp [GenerateRefresh, hsec, hhash, UpdateRefreshHash, ho]

theorem GenerateRandomToken_ok {d : Draw} (n : Nat) (h : d.randErr = none) :
    GenerateRandomToken d n = ((GenerateRandomToken d n).1, none) := by
  simp [GenerateRandomToken, h]

/-- Counterexample to C4 as stated: for a well-formed identifier that no record
carries, `GenerateRefresh` returns a token and no error, yet the store is
untouched and holds no refresh hash, indeed no record, for that identifier. -/
theorem GenerateRefresh_unknown_user_succeeds :
    GenerateRefresh demoExt (demoDraw 7) [alice] "00000000000000000000000b"
      = (("00000000000000000000000b:BwcHBwcHBwcHBwcHBwcHBwcHBwcHBwcHBwcHBwcHBwc", none),
          [alice]) ∧
    FindByID [alice] "00000000000000000000000b" = (none, some .ErrUserNotFound) := by
  decide

/-- C4, amended: whenever `GenerateRefresh userID` returns without error and a
record with that identifier exists, the token is `userID ++ ":" ++ secret` for
the secret just generated, and the record found under `userID` afterwards is
the former record with its refresh hash replaced by the hash of `secret` alone
(and its update time stamped). -/
theorem GenerateRefresh_stores_hash_of_secret (ext : Externals) (d : Draw)
    (store store1 : Store) (userID token : String) (u : User)
    (hu : FindByID store userID = (some u, none))
    (h : GenerateRefresh ext d store userID = ((token, none), store1)) :
    ∃ secret hash : String,
      GenerateRandomToken d 32 = (secret, none) ∧
      token = userID ++ ":" ++ secret ∧
      HashToken ext d secret = (hash, none) ∧
      FindByID store1 userID
        = (some { u with RefreshTokenHash := hash, Updated := bsonDateTime d.nowUpdated }, none) := by
  obtain ⟨secret, hash, oid, hsec, hhash, ho, htok, hst⟩ := GenerateRefresh_ok h
  obtain ⟨oid2, ho2, hf, _⟩ := FindByID_ok hu
  have hoid : oid2 = oid := by
    rw [ho] at ho2
    simpa using ho2.symm
  subst hoid
  refine ⟨secret, hash, hsec, htok, hhash, ?_⟩
  rw [hst]
  exact FindByID_after_write hash (bsonDateTime d.nowUpdated) ho hf

/-- Witness for the amended C4: issuing a refresh token for Alice. -/
theorem GenerateRefresh_stores_hash_of_secret_witness :
    FindByID [alice] aliceID = (some alice, none) ∧
    GenerateRefresh demoExt (demoDraw 7) [alice] aliceID
      = (("00000000000000000000000a:BwcHBwcHBwcHBwcHBwcHBwcHBwcHBwcHBwcHBwcHBwc", none),
          [{ alice with
              RefreshTokenHash := "$2a$10$BwcHBwcHBwcHBwcHBwcHBwcHBwcHBwcHBwcHBwcHBwc",
              Updated := 10500000000 }]) ∧
    ∃ secret hash : String,
      GenerateRandomToken (demoDraw 7) 32 = (secret, none) ∧
      "00000000000000000000000a:BwcHBwcHBwcHBwcHBwcHBwcHBwcHBwcHBwcHBwcHBwc"
        = aliceID ++ ":" ++ secret ∧
      HashToken demoExt (demoDraw 7) secret = (hash, none) ∧
      FindByID [{ alice with
              RefreshTokenHash := "$2a$10$BwcHBwcHBwcHBwcHBwcHBwcHBwcHBwcHBwcHBwcHBwc",
              Updated := 10500000000 }] aliceID
        = (some { alice with RefreshTokenHash := hash, Updated := bsonDateTime (demoDraw 7).nowUpdated },
            none) :=
  ⟨by decide, by decide,
    GenerateRefresh_stores_hash_of_secret demoExt (demoDraw 7) [alice] _ aliceID _ alice
      (by decide) (by decide)⟩

theorem CompareTokenHash_eq_true {ext : Externals} {hash token : String} :
    CompareTokenHash ext hash token = true ↔ ext.bcryptCompare hash token = none := by
  simp [CompareTokenHash, Option.isNone_iff_eq_none]

/-- Two tokens with identifiers of the same length and different secrets
differ. -/
theorem token_ne_of_secret_ne {a b s1 s2 : String} (hlen : a.data.length = b.data.length)
    (hne : s2 ≠ s1) : a ++ ":" ++ s2 ≠ b ++ ":" ++ s1 := by
  intro h
  have hd : a.data ++ ':' :: s2.data = b.data ++ ':' :: s1.data := by
    have := congrArg String.data h
    simpa [String.data_append] using this
  have h2 := (List.append_inj hd hlen).2
  simp only [List.cons.injEq, true_and] at h2
  exact hne (String.ext h2)

/-- The demonstration hash accepts exactly the secret it was made from, and
is never empty. -/
theorem demoExt_exact (secret : String) (salt : Nat) (h : String)
    (hg : demoExt.bcryptGenerate secret bcryptDefaultCost salt = .ok h) :
    h ≠ "" ∧ ∀ cand, demoExt.bcryptCompare h cand = none ↔ cand = secret := by
  have hh : h = "$2a$10$" ++ secret := by
    simp only [demoExt, Except.ok.injEq] at hg
    exact hg.symm
  subst hh
  constructor
  · intro he
    have := congrArg String.data he
    simp [String.data_append] at this
  · intro cand
    simp only [demoExt]
    constructor
    · intro hc
      split at hc
      · rename_i heq
        have := congrArg String.data heq
        simp only [String.data_append, List.append_cancel_left_eq] at this
        exact (String.ext this).symm
      · simp at hc
    · intro hc
      simp [hc]

/-- C1: for an existing user, if `GenerateRefresh` returns the token `t1`, then
`RefreshAccess t1` succeeds and returns a refresh token `t2 ≠ t1`, and a second
`RefreshAccess t1` afterwards fails with "refresh token mismatch", writing
nothing.  Assumed: a bcrypt hash is not empty and verifies exactly the secret
it was made from; during the rotation the random source and bcrypt deliver; and
the secret drawn for the rotation differs from the one inside `t1`. -/
theorem refresh_rotation_single_use (ext : Externals) (s : AuthService) (d1 d2 d3 : Draw)
    (store0 store1 : Store) (uid t1 : String) (u : User)
    (hexact : ∀ secret salt h, ext.bcryptGenerate secret bcryptDefaultCost salt = .ok h →
      h ≠ "" ∧ ∀ cand, ext.bcryptCompare h cand = none ↔ cand = secret)
    (hu : FindByID store0 uid = (some u, none))
    (h1 : GenerateRefresh ext d1 store0 uid = ((t1, none), store1))
    (hrand : d2.randErr = none)
    (hhash : ∃ h2, ext.bcryptGenerate (GenerateRandomToken d2 32).1 bcryptDefaultCost d2.salt
      = .ok h2)
    (hfresh : (GenerateRandomToken d2 32).1 ≠ (GenerateRandomToken d1 32).1) :
    ∃ (access t2 : String) (user : User) (store2 : Store),
      RefreshAccess ext s d2 store1 t1 = ((access, t2, some user, none), store2) ∧
      t2 ≠ t1 ∧
      RefreshAccess ext s d3 store2 t1 = (("", "", none, some .refreshMismatch), store2) ∧
      Error.refreshMismatch.message = "refresh token mismatch" := by
  obtain ⟨s1, hash1, oid, hsec1, hhash1, ho, htok, hst1⟩ := GenerateRefresh_ok h1
  obtain ⟨oid0, ho0, hf0, hid⟩ := FindByID_ok hu
  have hoid : oid0 = oid := by
    rw [ho] at ho0
    simpa using ho0.symm
  subst hoid
  obtain ⟨hash2, hgen2⟩ := hhash
  have hs1 : (GenerateRandomToken d1 32).1 = s1 := by rw [hsec1]
  rw [hs1] at hfresh
  -- the state after issuing
  have hfind1 : FindByID store1 uid
      = (some { u with RefreshTokenHash := hash1, Updated := bsonDateTime d1.nowUpdated }, none) := by
    rw [hst1]
    exact FindByID_after_write hash1 (bsonDateTime d1.nowUpdated) ho0 hf0
  obtain ⟨_, _, hf1, _⟩ := FindByID_ok hfind1
  have hx1 := hexact s1 d1.salt hash1 (HashToken_ok.mp hhash1)
  have hcmp1 : CompareTokenHash ext hash1 s1 = true :=
    CompareTokenHash_eq_true.mpr ((hx1.2 s1).mpr rfl)
  -- the rotation
  have hoH : ObjectIDFromHex oid0.Hex = (oid0, none) := ObjectIDFromHex_Hex ho0
  have hsec2 := GenerateRandomToken_ok 32 hrand
  have hhash2 : HashToken ext d2 (GenerateRandomToken d2 32).1 = (hash2, none) :=
    HashToken_ok.mpr hgen2
  have hf1' : store1.find? (fun x => decide (x.ID = oid0))
      = some { u with RefreshTokenHash := hash1, Updated := bsonDateTime d1.nowUpdated } := by
    have := FindByID_ok hfind1
    obtain ⟨o, hoo, hff, _⟩ := this
    have : o = oid0 := by
      rw [ho0] at hoo
      simpa using hoo.symm
    subst this
    exact hff
  have hrot := GenerateRefresh_eq store1 hsec2 hhash2 hoH
  have hx2 := hexact _ d2.salt hash2 hgen2
  have hcmp2 : CompareTokenHash ext hash2 s1 = false := by
    rw [Bool.eq_false_iff]
    intro hc
    exact hfresh ((hx2.2 s1).mp (CompareTokenHash_eq_true.mp hc)).symm
  have hfind2 : FindByID
      (updateFirst (fun x => decide (x.ID = oid0))
        (fun x => { x with RefreshTokenHash := hash2, Updated := bsonDateTime d2.nowUpdated }) store1) uid
      = (some { ({ u with RefreshTokenHash := hash1, Updated := bsonDateTime d1.nowUpdated } : User) with
                RefreshTokenHash := hash2, Updated := bsonDateTime d2.nowUpdated }, none) :=
    FindByID_after_write hash2 (bsonDateTime d2.nowUpdated) ho0 hf1'
  have hcolon := ObjectIDFromHex_no_colon ho0
  refine ⟨(GenerateToken ext.jwt d2 oid0.Hex s.jwtSecret s.accessTTL).1,
    oid0.Hex ++ ":" ++ (GenerateRandomToken d2 32).1,
    { u with RefreshTokenHash := hash1, Updated := bsonDateTime d1.nowUpdated },
    updateFirst (fun x => decide (x.ID = oid0))
      (fun x => { x with RefreshTokenHash := hash2, Updated := bsonDateTime d2.nowUpdated }) store1,
    ?_, ?_, ?_, rfl⟩
  · rw [htok, RefreshAccess_of_sep ext s d2 store1 uid s1 hcolon]
    simp only [refreshAccessFrom, hfind1]
    simp only [hx1.1, if_false, hcmp1, Bool.not_true, Bool.false_eq_true, hid, hrot]
    simp [GenerateToken]
  · rw [htok]
    exact token_ne_of_secret_ne (Hex_length ho0) hfresh
  · rw [htok, RefreshAccess_of_sep ext s d3 _ uid s1 hcolon]
    simp only [refreshAccessFrom, hfind2]
    simp [hx2.1, hcmp2]

/-- Witness for C1: a token is issued to Alice, redeemed once, and refused the
second time. -/
theorem refresh_rotation_single_use_witness :
    FindByID [alice] aliceID = (some alice, none) ∧
    GenerateRefresh demoExt (demoDraw 7) [alice] aliceID
      = (("00000000000000000000000a:BwcHBwcHBwcHBwcHBwcHBwcHBwcHBwcHBwcHBwcHBwc", none),
          [{ alice with
              RefreshTokenHash := "$2a$10$BwcHBwcHBwcHBwcHBwcHBwcHBwcHBwcHBwcHBwcHBwc",
              Updated := 10500000000 }]) ∧
    (GenerateRandomToken (demoDraw 8) 32).1 ≠ (GenerateRandomToken (demoDraw 7) 32).1 ∧
    ∃ (access t2 : String) (user : User) (store2 : Store),
      RefreshAccess demoExt demoService (demoDraw 8)
          [{ alice with
              RefreshTokenHash := "$2a$10$BwcHBwcHBwcHBwcHBwcHBwcHBwcHBwcHBwcHBwcHBwc",
              Updated := 10500000000 }]
          "00000000000000000000000a:BwcHBwcHBwcHBwcHBwcHBwcHBwcHBwcHBwcHBwcHBwc"
        = ((access, t2, some user, none), store2) ∧
      t2 ≠ "00000000000000000000000a:BwcHBwcHBwcHBwcHBwcHBwcHBwcHBwcHBwcHBwcHBwc" ∧
      RefreshAccess demoExt demoService (demoDraw 9) store2
          "00000000000000000000000a:BwcHBwcHBwcHBwcHBwcHBwcHBwcHBwcHBwcHBwcHBwc"
        = (("", "", none, some .refreshMismatch), store2) ∧
      Error.refreshMismatch.message = "refresh token mismatch" :=
  ⟨by decide, by decide, by decide,
    refresh_rotation_single_use demoExt demoService (demoDraw 7) (demoDraw 8) (demoDraw 9)
      [alice] _ aliceID _ alice demoExt_exact (by decide) (by decide) (by decide)
      ⟨"$2a$10$CAgICAgICAgICAgICAgICAgICAgICAgICAgICAgICAg", rfl⟩ (by decide)⟩

/-! ## Access tokens -/

theorem digitVal_digitChar {m : Nat} (h : m < 10) : digitVal (digitChar m) = some m := by
  interval_cases m <;> decide

theorem digitChar_ne {m : Nat} (h : m < 10) : digitChar m ≠ ':' ∧ digitChar m ≠ '-' := by
  interval_cases m <;> decide

theorem readDigits_decimalAux : ∀ (fuel n : Nat) (acc : List Char), n < fuel →
    readDigits (some 0) (decimalAux fuel n acc) = readDigits (some n) acc := by
  intro fuel
  induction fuel with
  | zero => intro n acc h; omega
  | succ fuel ih =>
    intro n acc h
    unfold decimalAux
    by_cases hn : n < 10
    · simp [hn, readDigits, digitVal_digitChar hn]
    · simp only [hn, if_false]
      rw [ih (n / 10) _ (by omega)]
      have hm : n % 10 < 10 := Nat.mod_lt _ (by decide)
      simp only [readDigits, List.foldl_cons, digitVal_digitChar hm]
      congr 2
      omega

theorem decimalAux_shape : ∀ (fuel n : Nat) (acc : List Char),
    ∃ ds : List Char, decimalAux (fuel + 1) n acc = ds ++ acc ∧ ds ≠ [] ∧
      ∀ c ∈ ds, ∃ m, m < 10 ∧ c = digitChar m := by
  intro fuel
  induction fuel with
  | zero =>
    intro n acc
    unfold decimalAux
    by_cases hn : n < 10
    · exact ⟨[digitChar n], by simp [hn], by simp, by simpa using ⟨n, hn, rfl⟩⟩
    · refine ⟨[digitChar (n % 10)], by simp [hn, decimalAux], by simp, ?_⟩
      simpa using ⟨n % 10, Nat.mod_lt _ (by decide), rfl⟩
  | succ fuel ih =>
    intro n acc
    unfold decimalAux
    by_cases hn : n < 10
    · exact ⟨[digitChar n], by simp [hn], by simp, by simpa using ⟨n, hn, rfl⟩⟩
    · obtain ⟨ds, hds, hne, hall⟩ := ih (n / 10) (digitChar (n % 10) :: acc)
      refine ⟨ds ++ [digitChar (n % 10)], by simp [hn, hds], by simp, ?_⟩
      intro c hc
      rcases List.mem_append.mp hc with h | h
      · exact hall c h
      · exact ⟨n % 10, Nat.mod_lt _ (by decide), by simpa using h⟩

/-- A number in decimal is a non-empty run of digits. -/
theorem decimal_digits (n : Nat) :
    decimal n ≠ [] ∧ ∀ c ∈ decimal n, ∃ m, m < 10 ∧ c = digitChar m := by
  obtain ⟨ds, hds, hne, hall⟩ := decimalAux_shape n n []
  unfold decimal
  rw [hds]
  simpa using ⟨hne, hall⟩

theorem readNat_decimal (n : Nat) : readNat (decimal n) = some n := by
  have h := readDigits_decimalAux (n + 1) n [] (by omega)
  have hne := (decimal_digits n).1
  unfold decimal at hne ⊢
  cases hd : decimalAux (n + 1) n [] with
  | nil => exact absurd hd hne
  | cons c cs =>
    rw [hd] at h
    simpa [readNat, readDigits] using h

theorem colon_not_mem_decimal (n : Nat) : ':' ∉ decimal n := by
  intro h
  obtain ⟨m, hm, hc⟩ := (decimal_digits n).2 _ h
  exact (digitChar_ne hm).1 hc.symm

/-- A framed field is read back, with the rest behind it. -/
theorem unframe_frame (field rest : List Char) :
    unframe (frame field rest) = some (field, rest) := by
  unfold unframe frame
  rw [cutAt_append _ (colon_not_mem_decimal _)]
  simp [readNat_decimal]

/-- A time field is read back. -/
theorem readTime_showTime (t : Option Int) : readTime (showTime t) = some t := by
  cases t with
  | none => rfl
  | some t =>
    by_cases ht : t < 0
    · have hval : -(Int.ofNat t.natAbs) = t := by
        simp only [Int.ofNat_eq_coe]
        omega
      simp only [showTime, ht, if_true, readTime, readNat_decimal, Option.map_some', hval]
    · simp only [showTime, ht, if_false]
      obtain ⟨hne, hall⟩ := decimal_digits t.toNat
      have hr := readNat_decimal t.toNat
      cases hd : decimal t.toNat with
      | nil => exact absurd hd hne
      | cons c cs =>
        rw [hd] at hr hall
        obtain ⟨m, hm, hc⟩ := hall c (by simp)
        have hminus : c ≠ '-' := by
          rw [hc]
          exact (digitChar_ne hm).2
        have hval : Int.ofNat t.toNat = t := by
          simp only [Int.ofNat_eq_coe]
          omega
        simp only [readTime, hminus, if_false, hr, Option.map_some', hval]

/-- The demonstration codec obeys the law of a JWT library: parsing the
compact serialisation of a signed text gives back the signing method, the
claims, the signed text and the signature. -/
theorem demoJwt_lawful (alg : String) (claims : RegisteredClaims) (sig : String) :
    demoJwt.decode (demoJwt.compact (demoJwt.SigningString alg claims) sig)
      = some (alg, claims, demoJwt.SigningString alg claims, sig) := by
  simp [demoJwt, unframe_frame, readTime_showTime]

/-- With a lifetime of at least one second, the expiry written into a token
lies after the clock reading it was computed from. -/
theorem expiry_after_issue (now ttl : Int) (h : second ≤ ttl) :
    now < NewNumericDate (now + ttl) * second := by
  unfold NewNumericDate second at *
  omega

/-- Counterexample to C7 as stated: a token with the positive lifetime of 0.4
seconds, issued without error when the clock reads 10.5 seconds, carries the
expiry 10 seconds (10.9 truncated to whole seconds), and `ValidateToken` with the
same key at the very same clock reading rejects it as expired. -/
theorem sub_second_token_expired_at_issue :
    (0 : Int) < 400000000 ∧
    (demoDraw 7).nowValidate = (demoDraw 7).nowExpires ∧
    (GenerateToken demoJwt (demoDraw 7) aliceID "k" 400000000).2 = none ∧
    (issuedClaims (demoDraw 7) aliceID 400000000).ExpiresAt = some 10 ∧
    ValidateToken demoJwt (demoDraw 7)
        (GenerateToken demoJwt (demoDraw 7) aliceID "k" 400000000).1 "k"
      = ("", some (.library "token has invalid claims: token is expired")) := by
  decide

/-- C7, amended: a token made by `GenerateToken` for user `u`, key `k` and
lifetime `ttl` is issued without error, and `ValidateToken` with the same key
returns `u` and no error whenever the validator's clock is before the expiry
the token carries, which is the issuing clock plus `ttl` truncated to whole
seconds; for a `ttl` of at least one second that is the case at the clock
reading of the issue.  Neither function takes the store.  Assumed of the JWT
library: parsing a compact serialisation gives back what was serialised. -/
theorem access_token_round_trip (lib : JwtLib) (d dv : Draw) (u k : String) (ttl : Int)
    (hlaw : ∀ (alg : String) (claims : RegisteredClaims) (sig : String),
      lib.decode (lib.compact (lib.SigningString alg claims) sig)
        = some (alg, claims, lib.SigningString alg claims, sig)) :
    (GenerateToken lib d u k ttl).2 = none ∧
    (dv.nowValidate < NewNumericDate (d.nowExpires + ttl) * second →
      ValidateToken lib dv (GenerateToken lib d u k ttl).1 k = (u, none)) ∧
    (second ≤ ttl → dv.nowValidate ≤ d.nowExpires →
      ValidateToken lib dv (GenerateToken lib d u k ttl).1 k = (u, none)) := by
  have hk : knownMethod "HS256" = true := by decide
  have hm : isHMAC "HS256" = true := by decide
  have main : dv.nowValidate < NewNumericDate (d.nowExpires + ttl) * second →
      ValidateToken lib dv (GenerateToken lib d u k ttl).1 k = (u, none) := by
    intro hlive
    have hv : validateClaims dv.nowValidate (issuedClaims d u ttl) = none := by
      simp [validateClaims, verifyExpiresAt, verifyNotBefore, issuedClaims, hlive]
    simp only [ValidateToken, ParseWithClaims, GenerateToken, hlaw, hk, hm, hv]
    simp [issuedClaims]
  refine ⟨rfl, main, ?_⟩
  intro httl hnow
  exact main (lt_of_le_of_lt hnow (expiry_after_issue d.nowExpires ttl httl))

/-- Witness for the amended C7: a fifteen-minute token for Alice validated at
the clock reading of the issue. -/
theorem access_token_round_trip_witness :
    (demoDraw 8).nowValidate
      < NewNumericDate ((demoDraw 7).nowExpires + 15 * 60 * second) * second ∧
    second ≤ 15 * 60 * second ∧
    (demoDraw 8).nowValidate ≤ (demoDraw 7).nowExpires ∧
    (GenerateToken demoJwt (demoDraw 7) aliceID "k" (15 * 60 * second)).2 = none ∧
    ValidateToken demoJwt (demoDraw 8)
      (GenerateToken demoJwt (demoDraw 7) aliceID "k" (15 * 60 * second)).1 "k"
        = (aliceID, none) :=
  ⟨by decide, by decide, by decide,
    (access_token_round_trip demoJwt (demoDraw 7) (demoDraw 8) aliceID "k" (15 * 60 * second)
      demoJwt_lawful).1,
    (access_token_round_trip demoJwt (demoDraw 7) (demoDraw 8) aliceID "k" (15 * 60 * second)
      demoJwt_lawful).2.2 (by decide) (by decide)⟩

/-! ## The logout endpoint -/

/-- Whatever a `POST /api/v1/logout` request carries, the application answers
200 after clearing the two cookies and leaves the store as it was: the route
is registered outside the group the authentication middleware guards, so the
handler never sees a `user_id`. -/
theorem logout_route_never_writes (ext : Externals) (cfg : Config) (d : Draw)
    (cookies headers : List (String × String)) (body : Option Body) (store : Store) :
    serve ext cfg d
        { method := "POST", path := "/api/v1/logout", cookies := cookies, headers := headers,
          body := body } store
      = ({ status := 200, json := [], setCookies := [],
           clearedCookies := ["access_token", "refresh_token"] }, store) := by
  rfl

/-- C9, evaluated at the failing input: Alice has an active refresh session and
sends `POST /api/v1/logout` with her valid access token.  The middleware accepts
that very token on the guarded route, yet the logout request leaves her stored
refresh hash in place, and the refresh token issued before the logout is
redeemed afterwards. -/
theorem logout_endpoint_keeps_refresh_hash :
    (serve demoExt demoConfig (demoDraw 7)
        { method := "GET", path := "/api/v1/user/me",
          cookies := [("access_token",
            (GenerateToken demoJwt (demoDraw 7) aliceID demoConfig.JWTSecret
              (15 * 60 * second)).1)],
          headers := [], body := none } [alice]).1
      = { status := 200, json := [("user_id", aliceID)], setCookies := [],
          clearedCookies := [] } ∧
    serve demoExt demoConfig (demoDraw 7)
        { method := "POST", path := "/api/v1/logout",
          cookies := [("access_token",
            (GenerateToken demoJwt (demoDraw 7) aliceID demoConfig.JWTSecret
              (15 * 60 * second)).1)],
          headers := [], body := none } [alice]
      = ({ status := 200, json := [], setCookies := [],
           clearedCookies := ["access_token", "refresh_token"] }, [alice]) ∧
    alice.RefreshTokenHash = "$2a$10$s3cret" ∧
    (RefreshAccess demoExt demoService (demoDraw 8) [alice] (aliceID ++ ":" ++ "s3cret")).1.2.2.2
      = none := by
  decide

/-! ## What the service calls may change in the store -/

theorem keepsCredential_refl (addressed : User → Prop) (u : User) :
    keepsCredential addressed u u :=
  ⟨rfl, rfl, rfl, rfl, rfl, fun h => absurd rfl h⟩

/-- Rewriting the refresh hash of the first record with identifier `oid`
keeps every credential, and only a record with that identifier can differ. -/
theorem write_keepsCredential (oid : ObjectID) (hash : String) (now : Int) (store : Store) :
    List.Forall₂ (keepsCredential (fun a => a.ID = oid)) store
      (updateFirst (fun x => decide (x.ID = oid))
        (fun x => { x with RefreshTokenHash := hash, Updated := now }) store) := by
  apply updateFirst_frame
  · exact keepsCredential_refl _
  · intro u hu
    exact ⟨rfl, rfl, rfl, rfl, rfl, fun _ => by simpa using hu⟩

theorem forall₂_keepsCredential_mono {P Q : User → Prop} (hPQ : ∀ a, P a → Q a)
    {s1 s2 : Store} (h : List.Forall₂ (keepsCredential P) s1 s2) :
    List.Forall₂ (keepsCredential Q) s1 s2 := by
  refine List.Forall₂.imp ?_ h
  intro a b hab
  exact ⟨hab.1, hab.2.1, hab.2.2.1, hab.2.2.2.1, hab.2.2.2.2.1, fun hne => hPQ a (hab.2.2.2.2.2 hne)⟩

/-- The store after `GenerateRefresh`: untouched, or one refresh hash written
under the identifier the argument denotes. -/
theorem GenerateRefresh_store (ext : Externals) (d : Draw) (store : Store) (userID : String) :
    (GenerateRefresh ext d store userID).2 = store ∨
    ∃ oid hash, ObjectIDFromHex userID = (oid, none) ∧
      (GenerateRefresh ext d store userID).2
        = updateFirst (fun x => decide (x.ID = oid))
            (fun x => { x with RefreshTokenHash := hash, Updated := bsonDateTime d.nowUpdated }) store := by
  unfold GenerateRefresh
  split
  · exact Or.inl rfl
  · split
    · exact Or.inl rfl
    · rename_i hash _
      rcases ObjectIDFromHex_cases userID with ⟨oid, ho⟩ | ⟨err, ho⟩
      · exact Or.inr ⟨oid, hash, ho, by simp [UpdateRefreshHash, ho]⟩
      · exact Or.inl (by simp [UpdateRefreshHash, ho])

theorem GenerateRefresh_frame (ext : Externals) (d : Draw) (store : Store) (userID : String) :
    List.Forall₂ (keepsCredential (fun a => ObjectIDFromHex userID = (a.ID, none))) store
      (GenerateRefresh ext d store userID).2 := by
  rcases GenerateRefresh_store ext d store userID with h | ⟨oid, hash, ho, h⟩
  · rw [h]
    exact forall₂_refl_store _ (keepsCredential_refl _) store
  · rw [h]
    exact forall₂_keepsCredential_mono (fun a ha => by subst ha; exact ho)
      (write_keepsCredential oid hash (bsonDateTime d.nowUpdated) store)

/-- The store after `refreshAccessFrom`: untouched, or what `GenerateRefresh` leaves for
the user found under `sub`. -/
theorem redeem_store (ext : Externals) (s : AuthService) (d : Draw) (store : Store)
    (sub raw : String) :
    (refreshAccessFrom ext s d store sub raw).2 = store ∨
    ∃ user, FindByID store sub = (some user, none) ∧
      (refreshAccessFrom ext s d store sub raw).2 = (GenerateRefresh ext d store user.ID.Hex).2 := by
  unfold refreshAccessFrom
  split
  · exact Or.inl rfl
  · exact Or.inl rfl
  · rename_i user hfind
    split
    · exact Or.inl rfl
    · split
      · exact Or.inl rfl
      · split
        · exact Or.inl rfl
        · split
          · rename_i hgen
            exact Or.inr ⟨user, hfind, by rw [hgen]⟩
          · rename_i hgen
            exact Or.inr ⟨user, hfind, by rw [hgen]⟩

theorem redeem_frame (ext : Externals) (s : AuthService) (d : Draw) (store : Store)
    (sub raw : String) :
    List.Forall₂ (keepsCredential (fun a => ObjectIDFromHex sub = (a.ID, none))) store
      (refreshAccessFrom ext s d store sub raw).2 := by
  rcases redeem_store ext s d store sub raw with h | ⟨user, hfind, h⟩
  · rw [h]
    exact forall₂_refl_store _ (keepsCredential_refl _) store
  · rw [h]
    obtain ⟨oid, ho, _, hid⟩ := FindByID_ok hfind
    refine forall₂_keepsCredential_mono ?_ (GenerateRefresh_frame ext d store user.ID.Hex)
    intro a ha
    have h2 := ObjectIDFromHex_Hex ho
    rw [hid, h2] at ha
    rw [ho]
    simpa using ha

theorem Logout_frame (d : Draw) (store : Store) (userID : String) :
    List.Forall₂ (keepsCredential (fun a => ObjectIDFromHex userID = (a.ID, none))) store
      (Logout d store userID).2 := by
  rcases ObjectIDFromHex_cases userID with ⟨oid, ho⟩ | ⟨err, ho⟩
  · simp only [Logout, ClearRefreshHash, ho]
    exact forall₂_keepsCredential_mono (fun a ha => by subst ha; rfl)
      (write_keepsCredential oid "" (bsonDateTime d.nowUpdated) store)
  · simp only [Logout, ClearRefreshHash, ho]
    exact forall₂_refl_store _ (keepsCredential_refl _) store

/-- The store `Login` returns is the store it was given. -/
theorem Login_store (ext : Externals) (s : AuthService) (d : Draw) (store : Store)
    (email password : String) : (Login ext s d store email password).2 = store := by
  unfold Login
  split
  · rfl
  · rfl
  · split
    · rfl
    · split <;> rfl

/-- The user a successful `Login` returns is the record found under the
email. -/
theorem Login_user {ext : Externals} {s : AuthService} {d : Draw} {store : Store}
    {email password token : String} {user : User}
    (h : (Login ext s d store email password).1 = (token, some user, none)) :
    FindByEmail store email = (some user, none) := by
  unfold Login at h
  split at h
  · simp at h
  · simp at h
  · rename_i w hw
    split at h
    · simp at h
    · split at h
      · simp at h
      · simp only [Prod.mk.injEq, Option.some.injEq, and_true] at h
        rw [hw, h.2]

/-- C10: no call of `GenerateRefresh`, `RefreshAccess` or `Logout`, successful
or failing, deletes, adds or reorders records, and every record keeps its
identifier, name, email, password hash and creation time; a record that
differs afterwards (in its refresh hash and update time) carries the identifier
the call addresses: the argument of `GenerateRefresh` and `Logout`, the text
before the first `:` of the token for `RefreshAccess`.  `Login` leaves the whole
store as it is; the login endpoint, which calls `Login` and then
`GenerateRefresh`, changes at most the record found under the email. -/
theorem credentials_are_immutable (ext : Externals) (s : AuthService) (d : Draw)
    (store : Store) :
    (∀ userID : String,
      List.Forall₂ (keepsCredential (fun a => ObjectIDFromHex userID = (a.ID, none))) store
        (GenerateRefresh ext d store userID).2) ∧
    (∀ token : String,
      List.Forall₂
        (keepsCredential (fun a => ∃ sub raw, SplitN token ':' 2 = [sub, raw] ∧
          ObjectIDFromHex sub = (a.ID, none))) store
        (RefreshAccess ext s d store token).2) ∧
    (∀ userID : String,
      List.Forall₂ (keepsCredential (fun a => ObjectIDFromHex userID = (a.ID, none))) store
        (Logout d store userID).2) ∧
    (∀ email password : String, (Login ext s d store email password).2 = store) ∧
    (∀ (h : AuthHandler) (c : Ctx),
      List.Forall₂
        (keepsCredential (fun a => ∃ body user, c.req.body = some body ∧
          FindByEmail store body.Email = (some user, none) ∧ a.ID = user.ID)) store
        (AuthHandler.Login ext h d c store).2.1) := by
  refine ⟨GenerateRefresh_frame ext d store, ?_, Logout_frame d store,
    Login_store ext s d store, ?_⟩
  · intro token
    unfold RefreshAccess
    split
    · rename_i sub raw hsplit
      exact forall₂_keepsCredential_mono (fun a ha => ⟨sub, raw, hsplit, ha⟩)
        (redeem_frame ext s d store sub raw)
    · exact forall₂_refl_store _ (keepsCredential_refl _) store
  · intro h c
    unfold AuthHandler.Login
    split
    · exact forall₂_refl_store _ (keepsCredential_refl _) store
    · rename_i body hbody
      have hst := Login_store ext h.authService d store body.Email body.Password
      split
      · rename_i hlogin
        rw [hlogin] at hst
        simp only at hst
        subst hst
        exact forall₂_refl_store _ (keepsCredential_refl _) _
      · rename_i hlogin
        rw [hlogin] at hst
        simp only at hst
        subst hst
        exact forall₂_refl_store _ (keepsCredential_refl _) _
      · rename_i token user store0 hlogin
        have hfind : FindByEmail store body.Email = (some user, none) :=
          Login_user (by rw [hlogin])
        rw [hlogin] at hst
        simp only at hst
        subst hst
        have hframe := GenerateRefresh_frame ext d store0 user.ID.Hex
        have hmono : List.Forall₂
            (keepsCredential (fun a => ∃ body user, c.req.body = some body ∧
              FindByEmail store0 body.Email = (some user, none) ∧ a.ID = user.ID)) store0
            (GenerateRefresh ext d store0 user.ID.Hex).2 := by
          refine forall₂_keepsCredential_mono ?_ hframe
          intro a ha
          refine ⟨body, user, hbody, hfind, ?_⟩
          obtain ⟨_, hdec⟩ := ObjectIDFromHex_ok ha
          simp only [ObjectID.Hex, hexDecode_map_hexChar, Option.some.injEq] at hdec
          exact hdec.symm
        split
        · rename_i hgen
          rw [hgen] at hmono
          exact hmono
        · rename_i hgen
          rw [hgen] at hmono
          exact hmono

end SecureAuth
